import Mathlib

/-!
# Whitted ray tracer kernel (`02_whitted/src/exercise_02.cpp`, `main.cpp`)

A shallow embedding of the shading kernel and of `render_pixel` over an
arbitrary linearly ordered field `α` (exact arithmetic in place of `float`),
followed by theorems about it, stated over `ℝ`.

Modelling conventions

* `glm::vec3` is `Vec3 α`, with the component-wise operators of glm.
* `glm::sqrt` and `glm::pow` are parameters `sqrt : α → α` and
  `pow : α → α → α`; the theorems on `intersect_sphere` instantiate `sqrt` with
  `Real.sqrt`, those on the other functions hold for every choice.
* The functions of the framework that are called but not defined in the
  sources (`visible`, `reflect`, `refract`, `fresnel`, `trace_recursive`) are
  the fields of a record `Cglib`.
* An output parameter `float* t` is passed as the previous content of the cell
  and returned next to the result, so "not written" reads "returned unchanged".
* `cg_assert` halts the program: functions that assert return `Option`, and
  `none` is the halted run.
* Division is the total division of the field.
* The recursion depth (`int depth`) is an integer of `Int`; `depth + 1` is the
  sum of integers.
* The orchestrator `trace_recursive` is a field of `Cglib` for the functions
  of the sources; for the recursion depth of a whole ray tree it is modelled
  from the specification (`trace_recursive_model`).
-/

namespace Whitted

/-! ## glm -/

/-- The type `glm::vec3`. -/
@[ext]
structure Vec3 (α : Type) where
  x : α
  y : α
  z : α
deriving DecidableEq, Repr

namespace Vec3

variable {α : Type} [LinearOrderedField α]

/-- The vector `vec3(0.f)`. -/
instance : Zero (Vec3 α) := ⟨⟨0, 0, 0⟩⟩
/-- Component-wise sum `vec3 + vec3`. -/
instance : Add (Vec3 α) := ⟨fun u v => ⟨u.x + v.x, u.y + v.y, u.z + v.z⟩⟩
/-- The sum of `vec3` is associative and commutative over a field. -/
instance : AddCommMonoid (Vec3 α) where
  nsmul := nsmulRec
  add_assoc u v w := Vec3.ext (add_assoc _ _ _) (add_assoc _ _ _) (add_assoc _ _ _)
  zero_add u := Vec3.ext (zero_add _) (zero_add _) (zero_add _)
  add_zero u := Vec3.ext (add_zero _) (add_zero _) (add_zero _)
  add_comm u v := Vec3.ext (add_comm _ _) (add_comm _ _) (add_comm _ _)
instance : Sub (Vec3 α) := ⟨fun u v => ⟨u.x - v.x, u.y - v.y, u.z - v.z⟩⟩
instance : Neg (Vec3 α) := ⟨fun u => ⟨-u.x, -u.y, -u.z⟩⟩
/-- Component-wise product `vec3 * vec3`. -/
instance : Mul (Vec3 α) := ⟨fun u v => ⟨u.x * v.x, u.y * v.y, u.z * v.z⟩⟩
/-- Scaling `float * vec3`. -/
instance : HMul α (Vec3 α) (Vec3 α) := ⟨fun s v => ⟨s * v.x, s * v.y, s * v.z⟩⟩
/-- Scaling `vec3 * float`. -/
instance : HMul (Vec3 α) α (Vec3 α) := ⟨fun v s => ⟨v.x * s, v.y * s, v.z * s⟩⟩
/-- Scaling `vec3 / float`. -/
instance : HDiv (Vec3 α) α (Vec3 α) := ⟨fun v s => ⟨v.x / s, v.y / s, v.z / s⟩⟩

/-- The function `glm::dot`. -/
def dot (u v : Vec3 α) : α := u.x * v.x + u.y * v.y + u.z * v.z

/-- The function `glm::length`: the square root of `dot v v`. -/
def length (sqrt : α → α) (v : Vec3 α) : α := sqrt (dot v v)

/-- The function `glm::normalize`: `v * inversesqrt(dot(v, v))`. -/
def normalize (sqrt : α → α) (v : Vec3 α) : Vec3 α := v * (1 / sqrt (dot v v))

end Vec3

open Vec3

variable {α : Type} [LinearOrderedField α]

/-- The function `glm::max(a, b)`, which is `(a < b) ? b : a`. -/
def glm_max (a b : α) : α := if a < b then b else a

/-- The function `glm::min(a, b)`, which is `(b < a) ? b : a`. -/
def glm_min (a b : α) : α := if b < a then b else a

/-- Modelled from the spec: the macro `cg_assert` of `cglib/core/assert.h` is
not among the sources; by the spec a failed assertion is fatal and halts the
program at once. `none` is the halted run. -/
def cg_assert (cond : Bool) : Option Unit := if cond then some () else none

/-! ## `intersect_sphere` -/

/-- The ray-sphere test `intersect_sphere`. `EPSILON` is the constant of that
name used by the assertion (declared outside the sources). The argument `t` is
the content of the output cell before the call (the pointer itself is taken
to be valid, which is what `cg_assert(t)` checks); the result is the returned
`bool` and the content of the cell after the call. -/
def intersect_sphere (EPSILON : α) (sqrt : α → α)
    (ray_origin ray_direction center : Vec3 α) (radius : α) (t : α) :
    Option (Bool × α) := do
  cg_assert (decide (abs (length sqrt ray_direction - 1) < EPSILON))
  let a := dot ray_direction ray_direction
  let b := dot ((2 : α) * ray_direction) (ray_origin - center)
  let c := dot (ray_origin - center) (ray_origin - center) - radius * radius
  let discriminant := b * b - 4 * a * c
  if discriminant < 0 then
    return (false, t)
  let t1 := (-b - sqrt discriminant) / (2 * a)
  let t2 := (-b + sqrt discriminant) / (2 * a)
  if t1 ≥ 0 ∧ t2 ≥ 0 then
    return (true, glm_min t1 t2)
  else if t1 ≥ 0 then
    return (true, t1)
  else if t2 ≥ 0 then
    return (true, t2)
  else
    return (false, t)

/-- The values `a`, `b`, `c`, `discriminant`, `t1`, `t2` computed inside
`intersect_sphere`, as functions of its arguments. -/
def intersect_sphere.a (ray_direction : Vec3 α) : α :=
  dot ray_direction ray_direction

/-- The local `b` of `intersect_sphere`. -/
def intersect_sphere.b (ray_origin ray_direction center : Vec3 α) : α :=
  dot ((2 : α) * ray_direction) (ray_origin - center)

/-- The local `c` of `intersect_sphere`. -/
def intersect_sphere.c (ray_origin center : Vec3 α) (radius : α) : α :=
  dot (ray_origin - center) (ray_origin - center) - radius * radius

/-- The local `discriminant` of `intersect_sphere`. -/
def intersect_sphere.discriminant (ray_origin ray_direction center : Vec3 α)
    (radius : α) : α :=
  intersect_sphere.b ray_origin ray_direction center *
      intersect_sphere.b ray_origin ray_direction center -
    4 * intersect_sphere.a ray_direction * intersect_sphere.c ray_origin center radius

/-- The local `t1` of `intersect_sphere`. -/
def intersect_sphere.t1 (sqrt : α → α) (ray_origin ray_direction center : Vec3 α)
    (radius : α) : α :=
  (-intersect_sphere.b ray_origin ray_direction center -
      sqrt (intersect_sphere.discriminant ray_origin ray_direction center radius)) /
    (2 * intersect_sphere.a ray_direction)

/-- The local `t2` of `intersect_sphere`. -/
def intersect_sphere.t2 (sqrt : α → α) (ray_origin ray_direction center : Vec3 α)
    (radius : α) : α :=
  (-intersect_sphere.b ray_origin ray_direction center +
      sqrt (intersect_sphere.discriminant ray_origin ray_direction center radius)) /
    (2 * intersect_sphere.a ray_direction)

/-- The point `ray_origin + t * ray_direction` lies on the sphere:
`|o + t*d - c|^2 = r^2`. -/
def OnSphere (ray_origin ray_direction center : Vec3 α) (radius t : α) : Prop :=
  dot (ray_origin + t * ray_direction - center) (ray_origin + t * ray_direction - center)
    = radius * radius

/-! ## Scene data -/

/-- The interface `Light`: the three capabilities of a light. The class is
declared outside the sources; `getEmission` is virtual and may assert, so it
returns `Option`. -/
structure Light (α : Type) where
  getEmission : Vec3 α → Option (Vec3 α)
  getPosition : Vec3 α
  getPower : Vec3 α

/-- The fields of a `SpotLight`. -/
structure SpotLight (α : Type) where
  position : Vec3 α
  power : Vec3 α
  direction : Vec3 α
  falloff : α

/-- The method `SpotLight::getEmission`. -/
def SpotLight.getEmission (EPSILON : α) (sqrt : α → α) (pow : α → α → α)
    (self : SpotLight α) (omega : Vec3 α) : Option (Vec3 α) := do
  cg_assert (decide (abs (length sqrt omega - 1) < EPSILON))
  return self.power * ((2 : α) * self.falloff) *
    pow (glm_max 0 (dot omega self.direction)) self.falloff

/-- A spot light seen through the `Light` interface. -/
def SpotLight.toLight (EPSILON : α) (sqrt : α → α) (pow : α → α → α)
    (self : SpotLight α) : Light α :=
  { getEmission := SpotLight.getEmission EPSILON sqrt pow self
    getPosition := self.position
    getPower := self.power }

/-- The fields of `MaterialSample` read by the kernel. -/
structure MaterialSample (α : Type) where
  k_a : Vec3 α
  k_d : Vec3 α
  k_s : Vec3 α
  n : α

/-- The render parameters, `context.params`. -/
structure RaytracingParameters (α : Type) where
  max_depth : Int
  shadows : Bool
  ambient : Bool
  diffuse : Bool
  specular : Bool
  reflection : Bool
  transmission : Bool
  dispersion : Bool
  fresnel : Bool
  ray_epsilon : α

/-- The scene: its list of lights. -/
structure Scene (α : Type) where
  lights : List (Light α)

/-- The type `RaytracingContext`. -/
structure RaytracingContext (α : Type) where
  params : RaytracingParameters α
  scene : Scene α

/-- The type `RenderData`: the context, whether the pointer `tld` is valid, and
the pixel coordinates `x`, `y` written by `render_pixel`. -/
structure RenderData (α : Type) where
  context : RaytracingContext α
  tld : Bool
  x : α
  y : α

/-- The type `Ray`. -/
structure Ray (α : Type) where
  origin : Vec3 α
  direction : Vec3 α

/-- The services of the framework that the kernel calls and that are outside
the sources. `refract` returns `none` for the result `false` (total internal
reflection) and `some RV` for `true` with the direction it wrote. -/
structure Cglib (α : Type) where
  EPSILON : α
  sqrt : α → α
  pow : α → α → α
  reflect : Vec3 α → Vec3 α → Vec3 α
  refract : Vec3 α → Vec3 α → α → Option (Vec3 α)
  fresnel : Vec3 α → Vec3 α → α → α
  visible : RenderData α → Vec3 α → Vec3 α → Bool
  trace_recursive : RenderData α → Ray α → Int → Vec3 α

/-! ## `evaluate_phong` -/

/-- The local `L` of `evaluate_phong`: the direction from `P` to the light. -/
def evaluate_phong.L (env : Cglib α) (P : Vec3 α) (light : Light α) : Vec3 α :=
  normalize env.sqrt (light.getPosition - P)

/-- The local `visibility` of `evaluate_phong`: `1.f`, set to `0.f` when
shadows are enabled and `visible` answers `false`. -/
def evaluate_phong.visibility (env : Cglib α) (data : RenderData α) (P : Vec3 α)
    (light : Light α) : α :=
  if data.context.params.shadows then
    if !env.visible data P light.getPosition then 0 else 1
  else 1

/-- The local `illumination` of `evaluate_phong`; `emission` is the value
returned by `light->getEmission(-L)`. -/
def evaluate_phong.illumination (env : Cglib α) (data : RenderData α) (P N : Vec3 α)
    (emission : Vec3 α) (light : Light α) : Vec3 α :=
  emission * evaluate_phong.visibility env data P light *
      glm_max 0 (dot N (evaluate_phong.L env P light)) /
    dot (P - light.getPosition) (P - light.getPosition)

/-- The local `diffuse` of `evaluate_phong` after its `if`. -/
def evaluate_phong.diffuse (env : Cglib α) (data : RenderData α) (mat : MaterialSample α)
    (P N : Vec3 α) (emission : Vec3 α) (light : Light α) : Vec3 α :=
  if data.context.params.diffuse then
    evaluate_phong.illumination env data P N emission light * mat.k_d
  else 0

/-- The local `specular` of `evaluate_phong` after its `if`. -/
def evaluate_phong.specular (env : Cglib α) (data : RenderData α) (mat : MaterialSample α)
    (P N V : Vec3 α) (emission : Vec3 α) (light : Light α) : Vec3 α :=
  if data.context.params.specular then
    evaluate_phong.illumination env data P N emission light * mat.k_s *
      env.pow (glm_max 0 (dot V (env.reflect (evaluate_phong.L env P light) N))) mat.n
  else 0

/-- The local `ambient` of `evaluate_phong` after its `if`. -/
def evaluate_phong.ambient (data : RenderData α) (mat : MaterialSample α)
    (P : Vec3 α) (light : Light α) : Vec3 α :=
  if data.context.params.ambient then
    light.getPower / dot (P - light.getPosition) (P - light.getPosition) * mat.k_a
  else 0

/-- One iteration of the loop of `evaluate_phong` over the lights: the new
value of `contribution`. The run halts when the emission query halts. -/
def evaluate_phong.loop_body (env : Cglib α) (data : RenderData α)
    (mat : MaterialSample α) (P N V : Vec3 α) (contribution : Vec3 α)
    (light : Light α) : Option (Vec3 α) := do
  let emission ← light.getEmission (-(evaluate_phong.L env P light))
  return contribution +
    (evaluate_phong.diffuse env data mat P N emission light +
      evaluate_phong.specular env data mat P N V emission light +
      evaluate_phong.ambient data mat P light)

/-- The function `evaluate_phong`. -/
def evaluate_phong (env : Cglib α) (data : RenderData α) (mat : MaterialSample α)
    (P N V : Vec3 α) : Option (Vec3 α) := do
  cg_assert (decide (abs (length env.sqrt N - 1) < env.EPSILON))
  cg_assert (decide (abs (length env.sqrt V - 1) < env.EPSILON))
  data.context.scene.lights.foldlM (evaluate_phong.loop_body env data mat P N V) 0

/-- The render data with the toggles `ambient`, `diffuse`, `specular` set as
`render_image` sets them; everything else is kept. -/
def set_toggles (data : RenderData α) (ambient diffuse specular : Bool) : RenderData α :=
  { data with
    context := { data.context with
      params := { data.context.params with
        ambient := ambient, diffuse := diffuse, specular := specular } } }

/-- The render data with the toggle `shadows` set; everything else is kept. -/
def set_shadows (data : RenderData α) (shadows : Bool) : RenderData α :=
  { data with
    context := { data.context with
      params := { data.context.params with shadows := shadows } } }

/-- The Phong term of one light in the words of the specification:
`[diffuse ? I*k_d : 0] + [specular ? I*k_s*max(0, dot(V, reflect(L,N)))^n : 0] +
[ambient ? power/|P-pos|² * k_a : 0]`, with `L = normalize(pos - P)`,
`I = emission * vis * max(0, dot(N,L)) / |P-pos|²`, and `vis = 0` if shadows is
enabled and `visible(P,pos)` is false, else `1`. Here `emission` stands for
`getEmission(-L)` and `|P-pos|²` is `dot (P - pos) (P - pos)`. -/
def phong_reference_term (env : Cglib α) (data : RenderData α) (mat : MaterialSample α)
    (P N V : Vec3 α) (emission : Vec3 α) (light : Light α) : Vec3 α :=
  let pos := light.getPosition
  let L := normalize env.sqrt (pos - P)
  let vis : α :=
    if data.context.params.shadows = true ∧ env.visible data P pos = false then 0 else 1
  let I : Vec3 α := (vis * max 0 (dot N L) / dot (P - pos) (P - pos)) * emission
  (if data.context.params.diffuse then I * mat.k_d else 0) +
  (if data.context.params.specular then
    I * mat.k_s * env.pow (max 0 (dot V (env.reflect L N))) mat.n else 0) +
  (if data.context.params.ambient then
    light.getPower / dot (P - pos) (P - pos) * mat.k_a else 0)

/-- The reference Phong sum over all lights of the scene; `E light` stands for
the emission of `light` towards `P`. -/
def phong_reference (env : Cglib α) (data : RenderData α) (mat : MaterialSample α)
    (P N V : Vec3 α) (E : Light α → Vec3 α) : Vec3 α :=
  (data.context.scene.lights.map
    (fun light => phong_reference_term env data mat P N V (E light) light)).sum

/-! ## Secondary rays

The functions below return the colour together with the list of the calls of
`trace_recursive` they made, each call given by its ray and its depth. -/

/-- A recorded call of `trace_recursive`. -/
abbrev TraceCall (α : Type) := Ray α × Int

/-- The function `evaluate_reflection`. -/
def evaluate_reflection (env : Cglib α) (data : RenderData α) (depth : Int)
    (P N V : Vec3 α) : Vec3 α × List (TraceCall α) :=
  let RV := env.reflect V N
  let ray : Ray α := ⟨P + data.context.params.ray_epsilon * RV, RV⟩
  (env.trace_recursive data ray (depth + 1), [(ray, depth + 1)])

/-- The function `evaluate_transmission`. -/
def evaluate_transmission (env : Cglib α) (data : RenderData α) (depth : Int)
    (P N V : Vec3 α) (eta : α) : Vec3 α × List (TraceCall α) :=
  match env.refract V N eta with
  | none => (0, [])
  | some RV =>
    let ray : Ray α := ⟨P + data.context.params.ray_epsilon * RV, RV⟩
    (env.trace_recursive data ray (depth + 1), [(ray, depth + 1)])

/-- The function `handle_transmissive_material_single_ior`. -/
def handle_transmissive_material_single_ior (env : Cglib α) (data : RenderData α)
    (depth : Int) (P N V : Vec3 α) (eta : α) : Vec3 α × List (TraceCall α) :=
  if data.context.params.fresnel then
    let f := env.fresnel V N eta
    let first := evaluate_transmission env data depth P N V eta
    let second := evaluate_transmission env data depth P N V eta
    (f * first.1 + (1 - f) * second.1, first.2 ++ second.2)
  else
    evaluate_transmission env data depth P N V eta

/-- The function `handle_transmissive_material`; `eta_of_channel` holds the
indices of the red, green and blue channel in `x`, `y`, `z`. -/
def handle_transmissive_material (env : Cglib α) (data : RenderData α)
    (depth : Int) (P N V : Vec3 α) (eta_of_channel : Vec3 α) :
    Vec3 α × List (TraceCall α) :=
  if data.context.params.dispersion ∧
      ¬ (eta_of_channel.x = eta_of_channel.y ∧ eta_of_channel.x = eta_of_channel.z) then
    let red := handle_transmissive_material_single_ior env data depth P N V eta_of_channel.x
    let green := handle_transmissive_material_single_ior env data depth P N V eta_of_channel.y
    let blue := handle_transmissive_material_single_ior env data depth P N V eta_of_channel.z
    (⟨red.1.x, green.1.y, blue.1.z⟩, red.2 ++ green.2 ++ blue.2)
  else
    let eta : α := 1 / 3 * (eta_of_channel.x + eta_of_channel.y + eta_of_channel.z)
    handle_transmissive_material_single_ior env data depth P N V eta

/-- The render data with the toggle `fresnel` set; everything else is kept. -/
def set_fresnel (data : RenderData α) (fresnel : Bool) : RenderData α :=
  { data with
    context := { data.context with
      params := { data.context.params with fresnel := fresnel } } }

/-- The render data with the toggle `dispersion` set; everything else is kept. -/
def set_dispersion (data : RenderData α) (dispersion : Bool) : RenderData α :=
  { data with
    context := { data.context with
      params := { data.context.params with dispersion := dispersion } } }

/-- The render data with the light list of the scene replaced; everything else
is kept. -/
def set_lights (data : RenderData α) (lights : List (Light α)) : RenderData α :=
  { data with context := { data.context with scene := { lights := lights } } }

/-! ## `render_pixel` (`main.cpp`) -/

set_option linter.unusedVariables false in
/-- The function `render_pixel`. `createPrimaryRay` is a service of the
framework outside the sources. The result is the returned colour and the
render data after the call, whose `x` and `y` have been written. -/
def render_pixel (env : Cglib α) (createPrimaryRay : RenderData α → α → α → Ray α)
    (x y : Int) (context : RaytracingContext α) (data : RenderData α) :
    Option (Vec3 α × RenderData α) := do
  cg_assert data.tld
  let fx : α := (x : α) + 0.5
  let fy : α := (y : α) + 0.5
  let data : RenderData α := { data with x := fx, y := fy }
  let ray := createPrimaryRay data fx fy
  return (env.trace_recursive data ray 0, data)

/-! ## The orchestrator `trace_recursive`, from the specification -/

/-- What the orchestrator hands to the secondary-ray functions at a hit: the
point, the normal, the view vector, the channel indices, and the outcome of
its material dispatch (whether it evaluates reflection and transmission). -/
structure Hit (α : Type) where
  P : Vec3 α
  N : Vec3 α
  V : Vec3 α
  reflective : Bool
  transmissive : Bool
  eta_of_channel : Vec3 α

/-- The parts of the orchestrator on which the specification is silent: the
nearest hit of a ray with its material dispatch, the colour of a ray that
leaves the scene, and the compositing of the local, reflected and transmitted
colour. -/
structure Orchestrator (α : Type) where
  intersect : RenderData α → Ray α → Option (Hit α)
  background : RenderData α → Ray α → Vec3 α
  composite : RenderData α → Ray α → Hit α → Vec3 α → Vec3 α → Vec3 α

/-- A node of the ray tree: one call of `trace_recursive` with its ray, its
argument `depth`, and `nesting`, the number of recursive calls it is nested in
(the call made by `render_pixel` has nesting `0`). -/
structure TraceNode (α : Type) where
  ray : Ray α
  depth : Int
  nesting : Nat

/-- Modelled from the spec: the material dispatch of the orchestrator
`trace_recursive` (`cglib/rt/renderer.h`, not among the sources), which by the
specification calls the secondary-ray functions at the current depth. The
result is the reflected colour, the transmitted colour and the calls of
`trace_recursive` the two functions made. -/
def dispatch_secondary (env : Cglib α) (data : RenderData α) (depth : Int)
    (hit : Hit α) : Vec3 α × Vec3 α × List (TraceCall α) :=
  let reflection : Vec3 α × List (TraceCall α) :=
    if hit.reflective then evaluate_reflection env data depth hit.P hit.N hit.V
    else (0, [])
  let transmission : Vec3 α × List (TraceCall α) :=
    if hit.transmissive then
      handle_transmissive_material env data depth hit.P hit.N hit.V hit.eta_of_channel
    else (0, [])
  (reflection.1, transmission.1, reflection.2 ++ transmission.2)

/-- Modelled from the spec: the orchestrator `trace_recursive`
(`cglib/rt/renderer.h`) is not among the sources. By the specification it owns
the material dispatch that calls the secondary-ray functions at the current
depth and composites their results, recursive rays re-enter it, and on
reaching `max_depth` it casts no further secondary rays and contributes zero.
The result is the colour and the list of the nodes of the ray tree below this
call, this call first; every ray recorded by the secondary-ray functions
re-enters the orchestrator with the depth those functions passed. `fuel`
bounds the nesting still allowed; `none` is a run that exhausts it. -/
def trace_recursive_model (orc : Orchestrator α) (env : Cglib α) :
    Nat → RenderData α → Ray α → Int → Nat → Option (Vec3 α × List (TraceNode α))
  | 0, data, ray, depth, nesting =>
    if data.context.params.max_depth ≤ depth then
      some (0, [⟨ray, depth, nesting⟩])
    else none
  | fuel + 1, data, ray, depth, nesting =>
    if data.context.params.max_depth ≤ depth then
      some (0, [⟨ray, depth, nesting⟩])
    else
      match orc.intersect data ray with
      | none => some (orc.background data ray, [⟨ray, depth, nesting⟩])
      | some hit =>
        let env_rec : Cglib α :=
          { env with
            trace_recursive := fun dat r d =>
              ((trace_recursive_model orc env fuel dat r d (nesting + 1)).getD (0, [])).1 }
        let secondary := dispatch_secondary env_rec data depth hit
        let subtrees : List (Option (Vec3 α × List (TraceNode α))) :=
          secondary.2.2.map
            (fun call => trace_recursive_model orc env fuel data call.1 call.2 (nesting + 1))
        if subtrees.all Option.isSome then
          some (orc.composite data ray hit secondary.1 secondary.2.1,
            ⟨ray, depth, nesting⟩ ::
              (subtrees.filterMap (fun s => s.map Prod.snd)).flatten)
        else none

/-- The framework with the modelled orchestrator as its `trace_recursive`,
started with fuel `max_depth - depth`. -/
def orchestrated (orc : Orchestrator α) (env : Cglib α) : Cglib α :=
  { env with
    trace_recursive := fun data ray depth =>
      ((trace_recursive_model orc env (data.context.params.max_depth - depth).toNat
        data ray depth 0).getD (0, [])).1 }

/-! ## Component lemmas for `Vec3` -/

namespace Vec3

@[simp] theorem zero_x : (0 : Vec3 α).x = 0 := rfl
@[simp] theorem zero_y : (0 : Vec3 α).y = 0 := rfl
@[simp] theorem zero_z : (0 : Vec3 α).z = 0 := rfl
@[simp] theorem add_x (u v : Vec3 α) : (u + v).x = u.x + v.x := rfl
@[simp] theorem add_y (u v : Vec3 α) : (u + v).y = u.y + v.y := rfl
@[simp] theorem add_z (u v : Vec3 α) : (u + v).z = u.z + v.z := rfl
@[simp] theorem sub_x (u v : Vec3 α) : (u - v).x = u.x - v.x := rfl
@[simp] theorem sub_y (u v : Vec3 α) : (u - v).y = u.y - v.y := rfl
@[simp] theorem sub_z (u v : Vec3 α) : (u - v).z = u.z - v.z := rfl
@[simp] theorem neg_x (u : Vec3 α) : (-u).x = -u.x := rfl
@[simp] theorem neg_y (u : Vec3 α) : (-u).y = -u.y := rfl
@[simp] theorem neg_z (u : Vec3 α) : (-u).z = -u.z := rfl
@[simp] theorem mul_x (u v : Vec3 α) : (u * v).x = u.x * v.x := rfl
@[simp] theorem mul_y (u v : Vec3 α) : (u * v).y = u.y * v.y := rfl
@[simp] theorem mul_z (u v : Vec3 α) : (u * v).z = u.z * v.z := rfl
@[simp] theorem smul_x (s : α) (v : Vec3 α) : (s * v).x = s * v.x := rfl
@[simp] theorem smul_y (s : α) (v : Vec3 α) : (s * v).y = s * v.y := rfl
@[simp] theorem smul_z (s : α) (v : Vec3 α) : (s * v).z = s * v.z := rfl
@[simp] theorem mul_scalar_x (v : Vec3 α) (s : α) : (v * s).x = v.x * s := rfl
@[simp] theorem mul_scalar_y (v : Vec3 α) (s : α) : (v * s).y = v.y * s := rfl
@[simp] theorem mul_scalar_z (v : Vec3 α) (s : α) : (v * s).z = v.z * s := rfl
@[simp] theorem div_scalar_x (v : Vec3 α) (s : α) : (v / s).x = v.x / s := rfl
@[simp] theorem div_scalar_y (v : Vec3 α) (s : α) : (v / s).y = v.y / s := rfl
@[simp] theorem div_scalar_z (v : Vec3 α) (s : α) : (v / s).z = v.z / s := rfl

theorem ext_iff3 {β : Type} (u v : Vec3 β) :
    u = v ↔ u.x = v.x ∧ u.y = v.y ∧ u.z = v.z := by
  cases u; cases v; simp

end Vec3

/-! ## `intersect_sphere`: the body once the assertion has passed -/

/-- When the assertion on the direction passes, `intersect_sphere` returns, and
its result is the case distinction of the source on `discriminant`, `t1`, `t2`. -/
theorem intersect_sphere_of_assert (EPSILON : α) (sqrt : α → α)
    (o d c : Vec3 α) (r t : α)
    (hassert : abs (length sqrt d - 1) < EPSILON) :
    intersect_sphere EPSILON sqrt o d c r t =
      some (
        if intersect_sphere.discriminant o d c r < 0 then (false, t)
        else if 0 ≤ intersect_sphere.t1 sqrt o d c r ∧ 0 ≤ intersect_sphere.t2 sqrt o d c r then
          (true, glm_min (intersect_sphere.t1 sqrt o d c r) (intersect_sphere.t2 sqrt o d c r))
        else if 0 ≤ intersect_sphere.t1 sqrt o d c r then
          (true, intersect_sphere.t1 sqrt o d c r)
        else if 0 ≤ intersect_sphere.t2 sqrt o d c r then
          (true, intersect_sphere.t2 sqrt o d c r)
        else (false, t)) := by
  simp only [intersect_sphere, cg_assert, hassert, decide_True, if_true, ge_iff_le,
    intersect_sphere.discriminant, intersect_sphere.t1, intersect_sphere.t2,
    intersect_sphere.a, intersect_sphere.b, intersect_sphere.c]
  split_ifs <;> rfl

/-! ## `intersect_sphere` over the reals, unit direction -/

/-- A direction of length one has `dot d d = 1`, so `a = 1`. -/
theorem a_eq_one_of_unit (d : Vec3 ℝ) (hd : length Real.sqrt d = 1) :
    intersect_sphere.a d = 1 := by
  unfold length at hd
  exact (Real.sqrt_eq_one).1 hd

/-- A direction of length one passes the assertion for a positive `EPSILON`. -/
theorem assert_of_unit (EPSILON : ℝ) (d : Vec3 ℝ) (hε : 0 < EPSILON)
    (hd : length Real.sqrt d = 1) : abs (length Real.sqrt d - 1) < EPSILON := by
  rw [hd]; simpa using hε

/-- Substituting the ray into the sphere equation gives the quadratic
`a t² + b t + c = 0`. -/
theorem onSphere_iff_quadratic (o d c : Vec3 ℝ) (r t : ℝ) :
    OnSphere o d c r t ↔
      intersect_sphere.a d * t * t + intersect_sphere.b o d c * t +
        intersect_sphere.c o c r = 0 := by
  have key : dot (o + t * d - c) (o + t * d - c) - r * r =
      intersect_sphere.a d * t * t + intersect_sphere.b o d c * t +
        intersect_sphere.c o c r := by
    simp only [intersect_sphere.a, intersect_sphere.b, intersect_sphere.c, dot,
      add_x, add_y, add_z, sub_x, sub_y, sub_z, smul_x, smul_y, smul_z]
    ring
  rw [← key, OnSphere, sub_eq_zero]

/-- With a negative discriminant no parameter of the ray lies on the sphere. -/
theorem not_onSphere_of_discriminant_neg (o d c : Vec3 ℝ) (r t : ℝ)
    (hd : length Real.sqrt d = 1)
    (hdisc : intersect_sphere.discriminant o d c r < 0) : ¬ OnSphere o d c r t := by
  rw [onSphere_iff_quadratic, a_eq_one_of_unit d hd]
  rw [intersect_sphere.discriminant, a_eq_one_of_unit d hd] at hdisc
  intro h
  nlinarith [sq_nonneg (2 * t + intersect_sphere.b o d c)]

/-- With a non-negative discriminant, `t1 ≤ t2` and the parameters of the ray on
the sphere are exactly `t1` and `t2`. -/
theorem roots_of_discriminant_nonneg (o d c : Vec3 ℝ) (r : ℝ)
    (hd : length Real.sqrt d = 1)
    (hdisc : 0 ≤ intersect_sphere.discriminant o d c r) :
    intersect_sphere.t1 Real.sqrt o d c r ≤ intersect_sphere.t2 Real.sqrt o d c r ∧
    ∀ t, OnSphere o d c r t ↔
      t = intersect_sphere.t1 Real.sqrt o d c r ∨ t = intersect_sphere.t2 Real.sqrt o d c r := by
  have ha := a_eq_one_of_unit d hd
  have hs0 := Real.sqrt_nonneg (intersect_sphere.discriminant o d c r)
  have hss := Real.mul_self_sqrt hdisc
  refine ⟨?_, fun t => ?_⟩
  · simp only [intersect_sphere.t1, intersect_sphere.t2, ha]
    rw [div_le_div_iff_of_pos_right (by norm_num)]
    linarith
  · rw [onSphere_iff_quadratic]
    simp only [intersect_sphere.t1, intersect_sphere.t2, ha]
    generalize Real.sqrt (intersect_sphere.discriminant o d c r) = s at hs0 hss ⊢
    rw [intersect_sphere.discriminant, ha] at hss
    have hc : intersect_sphere.c o c r =
        (intersect_sphere.b o d c * intersect_sphere.b o d c - s * s) / 4 := by linarith
    have hfac : 1 * t * t + intersect_sphere.b o d c * t + intersect_sphere.c o c r =
        (t - (-intersect_sphere.b o d c - s) / (2 * 1)) *
          (t - (-intersect_sphere.b o d c + s) / (2 * 1)) := by
      rw [hc]; ring
    rw [hfac, mul_eq_zero, sub_eq_zero, sub_eq_zero]

/-- For a unit direction and a positive `EPSILON`, `intersect_sphere` returns,
and since `t1 ≤ t2` its result is decided by the sign of `t1`, then of `t2`. -/
theorem intersect_sphere_unit (EPSILON : ℝ) (o d c : Vec3 ℝ) (r t : ℝ)
    (hε : 0 < EPSILON) (hd : length Real.sqrt d = 1) :
    intersect_sphere EPSILON Real.sqrt o d c r t =
      some (
        if intersect_sphere.discriminant o d c r < 0 then (false, t)
        else if 0 ≤ intersect_sphere.t1 Real.sqrt o d c r then
          (true, intersect_sphere.t1 Real.sqrt o d c r)
        else if 0 ≤ intersect_sphere.t2 Real.sqrt o d c r then
          (true, intersect_sphere.t2 Real.sqrt o d c r)
        else (false, t)) := by
  rw [intersect_sphere_of_assert EPSILON Real.sqrt o d c r t (assert_of_unit EPSILON d hε hd)]
  by_cases hdisc : intersect_sphere.discriminant o d c r < 0
  · simp [hdisc]
  · have hle := (roots_of_discriminant_nonneg o d c r hd (not_lt.1 hdisc)).1
    by_cases h1 : 0 ≤ intersect_sphere.t1 Real.sqrt o d c r
    · have h2 : 0 ≤ intersect_sphere.t2 Real.sqrt o d c r := le_trans h1 hle
      simp [hdisc, h1, h2, glm_min, not_lt.2 hle]
    · simp [hdisc, h1]

/-- The square root of `4`, used to evaluate the examples. -/
theorem sqrt_four : Real.sqrt 4 = 2 := by
  rw [show (4 : ℝ) = 2 * 2 by norm_num]
  exact Real.sqrt_mul_self (by norm_num)

/-! ## Claims on `intersect_sphere` -/

/-- C1: over the reals, for a unit direction (and a positive `EPSILON`, so that
the assertion passes), `intersect_sphere` returns; it returns `true` exactly
when some `t' ≥ 0` has `|o + t'*d - c|² = r²`, and when it returns `true` the
value `t` it writes is non-negative and satisfies that equation. The radius
need not be positive for this. -/
theorem intersect_sphere_true_iff_hit (EPSILON : ℝ) (o d c : Vec3 ℝ) (r t0 : ℝ)
    (hε : 0 < EPSILON) (hd : length Real.sqrt d = 1) :
    ∃ hit t, intersect_sphere EPSILON Real.sqrt o d c r t0 = some (hit, t) ∧
      (hit = true ↔ ∃ t', 0 ≤ t' ∧ OnSphere o d c r t') ∧
      (hit = true → 0 ≤ t ∧ OnSphere o d c r t) := by
  rw [intersect_sphere_unit EPSILON o d c r t0 hε hd]
  by_cases hdisc : intersect_sphere.discriminant o d c r < 0
  · refine ⟨false, t0, by simp [hdisc], ?_, by simp⟩
    constructor
    · intro h; cases h
    · rintro ⟨t', -, ht'⟩
      exact absurd ht' (not_onSphere_of_discriminant_neg o d c r t' hd hdisc)
  · obtain ⟨hle, hroots⟩ := roots_of_discriminant_nonneg o d c r hd (not_lt.1 hdisc)
    by_cases h1 : 0 ≤ intersect_sphere.t1 Real.sqrt o d c r
    · have hon : OnSphere o d c r (intersect_sphere.t1 Real.sqrt o d c r) :=
        (hroots _).2 (Or.inl rfl)
      exact ⟨true, _, by simp [hdisc, h1], ⟨fun _ => ⟨_, h1, hon⟩, fun _ => rfl⟩,
        fun _ => ⟨h1, hon⟩⟩
    · by_cases h2 : 0 ≤ intersect_sphere.t2 Real.sqrt o d c r
      · have hon : OnSphere o d c r (intersect_sphere.t2 Real.sqrt o d c r) :=
          (hroots _).2 (Or.inr rfl)
        exact ⟨true, _, by simp [hdisc, h1, h2], ⟨fun _ => ⟨_, h2, hon⟩, fun _ => rfl⟩,
          fun _ => ⟨h2, hon⟩⟩
      · refine ⟨false, t0, by simp [hdisc, h1, h2], ?_, by simp⟩
        constructor
        · intro h; cases h
        · rintro ⟨t', h0, ht'⟩
          rcases (hroots t').1 ht' with h | h
          · exact absurd (h ▸ h0) h1
          · exact absurd (h ▸ h0) h2

/-- Witness of C1: the ray from `(0,0,3)` along `(0,0,-1)` and the sphere of
radius `2` about the origin. -/
theorem intersect_sphere_true_iff_hit_witness :
    ∃ hit t, intersect_sphere (1 / 1000) Real.sqrt
        (⟨0, 0, 3⟩ : Vec3 ℝ) ⟨0, 0, -1⟩ ⟨0, 0, 0⟩ 2 0 = some (hit, t) ∧
      (hit = true ↔ ∃ t', 0 ≤ t' ∧ OnSphere (⟨0, 0, 3⟩ : Vec3 ℝ) ⟨0, 0, -1⟩ ⟨0, 0, 0⟩ 2 t') ∧
      (hit = true → 0 ≤ t ∧ OnSphere (⟨0, 0, 3⟩ : Vec3 ℝ) ⟨0, 0, -1⟩ ⟨0, 0, 0⟩ 2 t) :=
  intersect_sphere_true_iff_hit (1 / 1000) ⟨0, 0, 3⟩ ⟨0, 0, -1⟩ ⟨0, 0, 0⟩ 2 0
    (by norm_num) (by simp [length, dot])

/-- C2: over the reals, for a unit direction, when `intersect_sphere` returns
`true` no parameter `t'` with `0 ≤ t' < t` lies on the sphere, `t` being the
value written; and when the origin is strictly outside the sphere, the
discriminant is positive and both roots are positive, the function returns
`true` and writes `t1`, the smaller of the two roots. -/
theorem intersect_sphere_nearest_root (EPSILON : ℝ) (o d c : Vec3 ℝ) (r t0 : ℝ)
    (hε : 0 < EPSILON) (hd : length Real.sqrt d = 1) :
    (∀ t, intersect_sphere EPSILON Real.sqrt o d c r t0 = some (true, t) →
      ∀ t', 0 ≤ t' → t' < t → ¬ OnSphere o d c r t') ∧
    (r * r < dot (o - c) (o - c) → 0 < intersect_sphere.discriminant o d c r →
      0 < intersect_sphere.t1 Real.sqrt o d c r →
      0 < intersect_sphere.t2 Real.sqrt o d c r →
      intersect_sphere EPSILON Real.sqrt o d c r t0 =
          some (true, intersect_sphere.t1 Real.sqrt o d c r) ∧
        intersect_sphere.t1 Real.sqrt o d c r < intersect_sphere.t2 Real.sqrt o d c r) := by
  rw [intersect_sphere_unit EPSILON o d c r t0 hε hd]
  constructor
  · intro t ht t' h0 hlt hon
    by_cases hdisc : intersect_sphere.discriminant o d c r < 0
    · simp [hdisc] at ht
    · obtain ⟨hle, hroots⟩ := roots_of_discriminant_nonneg o d c r hd (not_lt.1 hdisc)
      by_cases h1 : 0 ≤ intersect_sphere.t1 Real.sqrt o d c r
      · simp only [hdisc, h1, if_true, if_false, Option.some.injEq, Prod.mk.injEq,
          true_and] at ht
        rcases (hroots t').1 hon with h | h <;> linarith
      · by_cases h2 : 0 ≤ intersect_sphere.t2 Real.sqrt o d c r
        · simp only [hdisc, h1, h2, if_true, if_false, Option.some.injEq, Prod.mk.injEq,
            true_and] at ht
          rcases (hroots t').1 hon with h | h <;> linarith
        · simp [hdisc, h1, h2] at ht
  · intro _ hdisc h1 _
    refine ⟨by simp [not_lt.2 hdisc.le, h1.le], ?_⟩
    have ha := a_eq_one_of_unit d hd
    have hs : 0 < Real.sqrt (intersect_sphere.discriminant o d c r) := Real.sqrt_pos.2 hdisc
    simp only [intersect_sphere.t1, intersect_sphere.t2, ha]
    rw [div_lt_div_iff_of_pos_right (by norm_num)]
    linarith

/-- Witness of C2, the example of the specification: origin `(0,0,5)`,
direction `(0,0,-1)`, centre `(0,0,0)`, radius `1` give a hit with `t = 4`,
and no parameter in `[0, 4)` lies on the sphere. -/
theorem intersect_sphere_nearest_root_witness :
    intersect_sphere (1 / 1000) Real.sqrt
        (⟨0, 0, 5⟩ : Vec3 ℝ) ⟨0, 0, -1⟩ ⟨0, 0, 0⟩ 1 0 = some (true, 4) ∧
    ∀ t', 0 ≤ t' → t' < 4 →
      ¬ OnSphere (⟨0, 0, 5⟩ : Vec3 ℝ) ⟨0, 0, -1⟩ ⟨0, 0, 0⟩ 1 t' := by
  have H := intersect_sphere_nearest_root (1 / 1000) ⟨0, 0, 5⟩ ⟨0, 0, -1⟩ ⟨0, 0, 0⟩ 1 0
    (by norm_num) (by simp [length, dot])
  have hdisc : intersect_sphere.discriminant (⟨0, 0, 5⟩ : Vec3 ℝ) ⟨0, 0, -1⟩ ⟨0, 0, 0⟩ 1 = 4 := by
    simp [intersect_sphere.discriminant, intersect_sphere.a, intersect_sphere.b,
      intersect_sphere.c, dot]
    norm_num
  have h1 : intersect_sphere.t1 Real.sqrt (⟨0, 0, 5⟩ : Vec3 ℝ) ⟨0, 0, -1⟩ ⟨0, 0, 0⟩ 1 = 4 := by
    rw [intersect_sphere.t1, hdisc, sqrt_four]
    simp [intersect_sphere.a, intersect_sphere.b, dot]
    norm_num
  have h2 : intersect_sphere.t2 Real.sqrt (⟨0, 0, 5⟩ : Vec3 ℝ) ⟨0, 0, -1⟩ ⟨0, 0, 0⟩ 1 = 6 := by
    rw [intersect_sphere.t2, hdisc, sqrt_four]
    simp [intersect_sphere.a, intersect_sphere.b, dot]
    norm_num
  have hit := (H.2 (by simp [dot]; norm_num) (by rw [hdisc]; norm_num) (by rw [h1]; norm_num)
    (by rw [h2]; norm_num)).1
  rw [h1] at hit
  exact ⟨hit, H.1 4 hit⟩

/-- The `b` of the source, `dot(2*d, o-c)`, is `2*dot(d, o-c)`. -/
theorem b_eq_two_mul_dot (o d c : Vec3 ℝ) :
    intersect_sphere.b o d c = 2 * dot d (o - c) := by
  simp only [intersect_sphere.b, dot, smul_x, smul_y, smul_z, sub_x, sub_y, sub_z]
  ring

/-- C3: over the reals, for a unit direction and an origin strictly inside the
sphere, `intersect_sphere` returns `true` and writes
`(-b + sqrt(b² - 4ac)) / (2a)` with `a = dot(d,d)`, `b = 2*dot(d, o-c)`,
`c = dot(o-c, o-c) - r²`; that root is non-negative and the other root,
`(-b - sqrt(b² - 4ac)) / (2a)`, is strictly negative. -/
theorem intersect_sphere_origin_inside (EPSILON : ℝ) (o d c : Vec3 ℝ) (r t0 : ℝ)
    (hε : 0 < EPSILON) (hd : length Real.sqrt d = 1)
    (hin : dot (o - c) (o - c) < r * r) :
    intersect_sphere EPSILON Real.sqrt o d c r t0 =
      some (true,
        (-(2 * dot d (o - c)) +
            Real.sqrt ((2 * dot d (o - c)) ^ 2 -
              4 * dot d d * (dot (o - c) (o - c) - r * r))) / (2 * dot d d)) ∧
    0 ≤ (-(2 * dot d (o - c)) +
          Real.sqrt ((2 * dot d (o - c)) ^ 2 -
            4 * dot d d * (dot (o - c) (o - c) - r * r))) / (2 * dot d d) ∧
    (-(2 * dot d (o - c)) -
          Real.sqrt ((2 * dot d (o - c)) ^ 2 -
            4 * dot d d * (dot (o - c) (o - c) - r * r))) / (2 * dot d d) < 0 := by
  have ha := a_eq_one_of_unit d hd
  have hb := b_eq_two_mul_dot o d c
  have e2 : intersect_sphere.t2 Real.sqrt o d c r =
      (-(2 * dot d (o - c)) +
        Real.sqrt ((2 * dot d (o - c)) ^ 2 -
          4 * dot d d * (dot (o - c) (o - c) - r * r))) / (2 * dot d d) := by
    simp only [intersect_sphere.t2, intersect_sphere.discriminant, hb, intersect_sphere.c,
      intersect_sphere.a, pow_two]
  have e1 : intersect_sphere.t1 Real.sqrt o d c r =
      (-(2 * dot d (o - c)) -
        Real.sqrt ((2 * dot d (o - c)) ^ 2 -
          4 * dot d d * (dot (o - c) (o - c) - r * r))) / (2 * dot d d) := by
    simp only [intersect_sphere.t1, intersect_sphere.discriminant, hb, intersect_sphere.c,
      intersect_sphere.a, pow_two]
  rw [← e1, ← e2]
  have hc : intersect_sphere.c o c r < 0 := by
    simp only [intersect_sphere.c]; linarith
  have hdisc : 0 ≤ intersect_sphere.discriminant o d c r := by
    simp only [intersect_sphere.discriminant, ha]
    nlinarith [mul_self_nonneg (intersect_sphere.b o d c)]
  have hs0 := Real.sqrt_nonneg (intersect_sphere.discriminant o d c r)
  have hss := Real.mul_self_sqrt hdisc
  have h1 : intersect_sphere.t1 Real.sqrt o d c r < 0 := by
    simp only [intersect_sphere.t1, ha]
    rw [div_lt_iff₀ (by norm_num)]
    generalize Real.sqrt (intersect_sphere.discriminant o d c r) = s at hs0 hss ⊢
    rw [intersect_sphere.discriminant, ha] at hss
    nlinarith
  have h2 : 0 < intersect_sphere.t2 Real.sqrt o d c r := by
    simp only [intersect_sphere.t2, ha]
    apply div_pos _ (by norm_num)
    generalize Real.sqrt (intersect_sphere.discriminant o d c r) = s at hs0 hss ⊢
    rw [intersect_sphere.discriminant, ha] at hss
    nlinarith
  refine ⟨?_, h2.le, h1⟩
  rw [intersect_sphere_unit EPSILON o d c r t0 hε hd]
  simp [not_lt.2 hdisc, not_le.2 h1, h2.le]

/-- Witness of C3: the ray from the centre of the unit sphere along `(0,0,1)`. -/
theorem intersect_sphere_origin_inside_witness :
    intersect_sphere (1 / 1000) Real.sqrt
        (⟨0, 0, 0⟩ : Vec3 ℝ) ⟨0, 0, 1⟩ ⟨0, 0, 0⟩ 1 7 = some (true, 1) := by
  have H := (intersect_sphere_origin_inside (1 / 1000) ⟨0, 0, 0⟩ ⟨0, 0, 1⟩ ⟨0, 0, 0⟩ 1 7
    (by norm_num) (by simp [length, dot]) (by simp [dot])).1
  rw [H]
  simp [dot, sqrt_four]

/-- C4: whenever the discriminant `b² - 4ac` is negative, `intersect_sphere`
returns `false` and the content of the output cell is unchanged. This holds
over every ordered field and for every `sqrt`, for each ray that passes the
assertion on the length of its direction. -/
theorem intersect_sphere_discriminant_neg (EPSILON : α) (sqrt : α → α)
    (o d c : Vec3 α) (r t0 : α)
    (hassert : abs (length sqrt d - 1) < EPSILON)
    (hdisc : intersect_sphere.discriminant o d c r < 0) :
    intersect_sphere EPSILON sqrt o d c r t0 = some (false, t0) := by
  rw [intersect_sphere_of_assert EPSILON sqrt o d c r t0 hassert, if_pos hdisc]

/-- Witness of C4: the ray from `(0,5,0)` along `(0,0,1)` misses the unit
sphere about the origin; the cell keeps its content `7`. -/
theorem intersect_sphere_discriminant_neg_witness :
    intersect_sphere (1 / 1000) Real.sqrt
        (⟨0, 5, 0⟩ : Vec3 ℝ) ⟨0, 0, 1⟩ ⟨0, 0, 0⟩ 1 7 = some (false, 7) :=
  intersect_sphere_discriminant_neg (1 / 1000) Real.sqrt ⟨0, 5, 0⟩ ⟨0, 0, 1⟩ ⟨0, 0, 0⟩ 1 7
    (by simp [length, dot])
    (by simp [intersect_sphere.discriminant, intersect_sphere.a, intersect_sphere.b,
          intersect_sphere.c, dot]; norm_num)

/-- C5: over the reals, for a unit direction, when the discriminant is
non-negative and both roots `t1`, `t2` are negative, `intersect_sphere` returns
`false` and the content of the output cell is unchanged. -/
theorem intersect_sphere_behind (EPSILON : ℝ) (o d c : Vec3 ℝ) (r t0 : ℝ)
    (hε : 0 < EPSILON) (hd : length Real.sqrt d = 1)
    (hdisc : 0 ≤ intersect_sphere.discriminant o d c r)
    (h1 : intersect_sphere.t1 Real.sqrt o d c r < 0)
    (h2 : intersect_sphere.t2 Real.sqrt o d c r < 0) :
    intersect_sphere EPSILON Real.sqrt o d c r t0 = some (false, t0) := by
  rw [intersect_sphere_unit EPSILON o d c r t0 hε hd]
  simp [not_lt.2 hdisc, not_le.2 h1, not_le.2 h2]

/-- Witness of C5, the example of the specification: origin `(0,0,5)`,
direction `(0,0,1)`, centre `(0,0,0)`, radius `1` give no hit. -/
theorem intersect_sphere_behind_witness :
    intersect_sphere (1 / 1000) Real.sqrt
        (⟨0, 0, 5⟩ : Vec3 ℝ) ⟨0, 0, 1⟩ ⟨0, 0, 0⟩ 1 7 = some (false, 7) := by
  have hdisc : intersect_sphere.discriminant (⟨0, 0, 5⟩ : Vec3 ℝ) ⟨0, 0, 1⟩ ⟨0, 0, 0⟩ 1 = 4 := by
    simp [intersect_sphere.discriminant, intersect_sphere.a, intersect_sphere.b,
      intersect_sphere.c, dot]
    norm_num
  have h1 : intersect_sphere.t1 Real.sqrt (⟨0, 0, 5⟩ : Vec3 ℝ) ⟨0, 0, 1⟩ ⟨0, 0, 0⟩ 1 = -6 := by
    rw [intersect_sphere.t1, hdisc, sqrt_four]
    simp [intersect_sphere.a, intersect_sphere.b, dot]
    norm_num
  have h2 : intersect_sphere.t2 Real.sqrt (⟨0, 0, 5⟩ : Vec3 ℝ) ⟨0, 0, 1⟩ ⟨0, 0, 0⟩ 1 = -4 := by
    rw [intersect_sphere.t2, hdisc, sqrt_four]
    simp [intersect_sphere.a, intersect_sphere.b, dot]
    norm_num
  exact intersect_sphere_behind (1 / 1000) ⟨0, 0, 5⟩ ⟨0, 0, 1⟩ ⟨0, 0, 0⟩ 1 7
    (by norm_num) (by simp [length, dot]) (by rw [hdisc]; norm_num)
    (by rw [h1]; norm_num) (by rw [h2]; norm_num)

/-! ## `evaluate_phong`: the loop as a sum -/

/-- The term that one light adds to `contribution`, for the emission `e`. -/
theorem loop_body_of_emission (env : Cglib α) (data : RenderData α)
    (mat : MaterialSample α) (P N V acc e : Vec3 α) (l : Light α)
    (he : l.getEmission (-(evaluate_phong.L env P l)) = some e) :
    evaluate_phong.loop_body env data mat P N V acc l =
      some (acc + (evaluate_phong.diffuse env data mat P N e l +
        evaluate_phong.specular env data mat P N V e l +
        evaluate_phong.ambient data mat P l)) := by
  simp [evaluate_phong.loop_body, he]

/-- The loop over the lights adds up the terms of the lights, as long as no
emission query halts. -/
theorem foldlM_loop_body (env : Cglib α) (data : RenderData α)
    (mat : MaterialSample α) (P N V : Vec3 α) (E : Light α → Vec3 α) :
    ∀ (ls : List (Light α)) (acc : Vec3 α),
      (∀ l ∈ ls, l.getEmission (-(evaluate_phong.L env P l)) = some (E l)) →
      ls.foldlM (evaluate_phong.loop_body env data mat P N V) acc =
        some (acc + (ls.map (fun l =>
          evaluate_phong.diffuse env data mat P N (E l) l +
          evaluate_phong.specular env data mat P N V (E l) l +
          evaluate_phong.ambient data mat P l)).sum)
  | [], acc, _ => by simp
  | l :: ls, acc, h => by
    have hl := h l (List.mem_cons_self l ls)
    have hls : ∀ l' ∈ ls, l'.getEmission (-(evaluate_phong.L env P l')) = some (E l') :=
      fun l' hl' => h l' (List.mem_cons_of_mem l hl')
    rw [List.foldlM_cons, loop_body_of_emission env data mat P N V acc (E l) l hl]
    simp only [Option.bind_eq_bind, Option.some_bind]
    rw [foldlM_loop_body env data mat P N V E ls _ hls, List.map_cons, List.sum_cons,
      add_assoc]

/-- When both assertions pass and no emission query halts, `evaluate_phong`
returns the sum over the lights of `diffuse + specular + ambient`. -/
theorem evaluate_phong_eq_sum (env : Cglib α) (data : RenderData α)
    (mat : MaterialSample α) (P N V : Vec3 α) (E : Light α → Vec3 α)
    (hN : abs (length env.sqrt N - 1) < env.EPSILON)
    (hV : abs (length env.sqrt V - 1) < env.EPSILON)
    (hE : ∀ l ∈ data.context.scene.lights,
      l.getEmission (-(evaluate_phong.L env P l)) = some (E l)) :
    evaluate_phong env data mat P N V =
      some ((data.context.scene.lights.map (fun l =>
        evaluate_phong.diffuse env data mat P N (E l) l +
        evaluate_phong.specular env data mat P N V (E l) l +
        evaluate_phong.ambient data mat P l)).sum) := by
  simp only [evaluate_phong, cg_assert, hN, hV, decide_True, if_true]
  simp only [Option.bind_eq_bind, Option.some_bind]
  rw [foldlM_loop_body env data mat P N V E _ 0 hE, zero_add]

/-- The function `glm::max` is the maximum. -/
theorem glm_max_eq_max (a b : α) : glm_max a b = max a b := by
  unfold glm_max
  split_ifs with h
  · exact (max_eq_right h.le).symm
  · exact (max_eq_left (not_lt.1 h)).symm

/-- The term of one light computed by the loop is the reference term. -/
theorem loop_term_eq_reference_term (env : Cglib α) (data : RenderData α)
    (mat : MaterialSample α) (P N V e : Vec3 α) (l : Light α) :
    evaluate_phong.diffuse env data mat P N e l +
      evaluate_phong.specular env data mat P N V e l +
      evaluate_phong.ambient data mat P l =
    phong_reference_term env data mat P N V e l := by
  have hvis : evaluate_phong.visibility env data P l =
      (if data.context.params.shadows = true ∧ env.visible data P l.getPosition = false
        then 0 else 1) := by
    unfold evaluate_phong.visibility
    cases data.context.params.shadows <;> cases env.visible data P l.getPosition <;> simp
  have hI : evaluate_phong.illumination env data P N e l =
      ((if data.context.params.shadows = true ∧ env.visible data P l.getPosition = false
          then (0 : α) else 1) *
        max 0 (dot N (normalize env.sqrt (l.getPosition - P))) /
          dot (P - l.getPosition) (P - l.getPosition)) * e := by
    simp only [evaluate_phong.illumination, hvis, glm_max_eq_max, evaluate_phong.L]
    apply Vec3.ext <;> simp only [div_scalar_x, div_scalar_y, div_scalar_z, mul_scalar_x,
      mul_scalar_y, mul_scalar_z, smul_x, smul_y, smul_z] <;> ring
  simp only [evaluate_phong.diffuse, evaluate_phong.specular, evaluate_phong.ambient,
    phong_reference_term, hI, glm_max_eq_max, evaluate_phong.L]

/-! ## Claims on `evaluate_phong` -/

/-- C6: over the reals, when the assertions on `N` and `V` pass (they do for
unit `N` and `V`) and `E l` is the emission each light `l` returns towards `P`,
`evaluate_phong` returns the reference Phong sum over all lights. The point `P`
need not differ from the light positions for this, division being total. -/
theorem evaluate_phong_eq_reference (env : Cglib ℝ) (data : RenderData ℝ)
    (mat : MaterialSample ℝ) (P N V : Vec3 ℝ) (E : Light ℝ → Vec3 ℝ)
    (hN : abs (length env.sqrt N - 1) < env.EPSILON)
    (hV : abs (length env.sqrt V - 1) < env.EPSILON)
    (hE : ∀ l ∈ data.context.scene.lights,
      l.getEmission (-(normalize env.sqrt (l.getPosition - P))) = some (E l)) :
    evaluate_phong env data mat P N V = some (phong_reference env data mat P N V E) := by
  rw [evaluate_phong_eq_sum env data mat P N V E hN hV hE, phong_reference]
  simp only [loop_term_eq_reference_term]

/-- Witness of C6: one light of power `(4,4,4)` at `(0,0,2)` above the point
`P = (0,0,0)` with `N = V = (0,0,1)`, all toggles on and the light visible:
the result is `k_d + k_s + k_a`. -/
theorem evaluate_phong_eq_reference_witness :
    evaluate_phong
      (⟨1 / 1000, Real.sqrt, fun x y => x ^ y, fun I n => (2 * dot n I) * n - I,
        fun _ _ _ => none, fun _ _ _ => 0, fun _ _ _ => true, fun _ _ _ => 0⟩ : Cglib ℝ)
      ⟨⟨⟨4, true, true, true, true, false, false, false, false, 1 / 1000⟩,
        ⟨[⟨fun _ => some ⟨4, 4, 4⟩, ⟨0, 0, 2⟩, ⟨4, 4, 4⟩⟩]⟩⟩, true, 0, 0⟩
      ⟨⟨1 / 10, 1 / 10, 1 / 10⟩, ⟨1 / 2, 1 / 4, 0⟩, ⟨1 / 5, 1 / 5, 1 / 5⟩, 1⟩
      ⟨0, 0, 0⟩ ⟨0, 0, 1⟩ ⟨0, 0, 1⟩ = some ⟨4 / 5, 11 / 20, 3 / 10⟩ := by
  rw [evaluate_phong_eq_reference _ _ _ _ _ _ (fun _ => ⟨4, 4, 4⟩)
    (by simp [length, dot]) (by simp [length, dot])
    (by intro l hl; simp only [List.mem_singleton] at hl; subst hl; rfl)]
  have hL : Vec3.normalize Real.sqrt ((⟨0, 0, 2⟩ : Vec3 ℝ) - ⟨0, 0, 0⟩) = ⟨0, 0, 1⟩ := by
    have h4 : dot ((⟨0, 0, 2⟩ : Vec3 ℝ) - ⟨0, 0, 0⟩) (⟨0, 0, 2⟩ - ⟨0, 0, 0⟩) = 4 := by
      simp [dot]; norm_num
    rw [Vec3.normalize, h4, sqrt_four]
    simp [Vec3.ext_iff3]
  simp [phong_reference, phong_reference_term, hL, dot, Vec3.ext_iff3]
  norm_num

/-- With shadows enabled and the light occluded, `visibility` is `0`. -/
theorem visibility_of_occluded (env : Cglib α) (data : RenderData α) (P : Vec3 α)
    (l : Light α) (hsh : data.context.params.shadows = true)
    (hvis : env.visible data P l.getPosition = false) :
    evaluate_phong.visibility env data P l = 0 := by
  simp [evaluate_phong.visibility, hsh, hvis]

/-- With `visibility = 0` the illumination is the zero colour. -/
theorem illumination_of_visibility_zero (env : Cglib α) (data : RenderData α)
    (P N e : Vec3 α) (l : Light α) (h : evaluate_phong.visibility env data P l = 0) :
    evaluate_phong.illumination env data P N e l = 0 := by
  simp only [evaluate_phong.illumination, h]
  apply Vec3.ext <;> simp

/-- The local `ambient` does not read the toggle `shadows`. -/
theorem ambient_set_shadows (data : RenderData α) (mat : MaterialSample α)
    (P : Vec3 α) (l : Light α) (b : Bool) :
    evaluate_phong.ambient (set_shadows data b) mat P l =
      evaluate_phong.ambient data mat P l := rfl

/-- C7: with shadows enabled and `visible` answering `false` for every light,
over the reals and for every `P`, `N`, `V` passing the assertions, every
material and every light list whose emission queries return: the diffuse and
the specular term of every light are exactly zero, `evaluate_phong` returns the
sum over the lights of `power/|P-pos|² * k_a` when ambient is enabled and of
zero when it is not, and the ambient term of every light is the one computed
with shadows disabled. -/
theorem evaluate_phong_all_occluded (env : Cglib ℝ) (data : RenderData ℝ)
    (mat : MaterialSample ℝ) (P N V : Vec3 ℝ) (E : Light ℝ → Vec3 ℝ)
    (hN : abs (length env.sqrt N - 1) < env.EPSILON)
    (hV : abs (length env.sqrt V - 1) < env.EPSILON)
    (hE : ∀ l ∈ data.context.scene.lights,
      l.getEmission (-(normalize env.sqrt (l.getPosition - P))) = some (E l))
    (hsh : data.context.params.shadows = true)
    (hvis : ∀ l ∈ data.context.scene.lights, env.visible data P l.getPosition = false) :
    (∀ l ∈ data.context.scene.lights,
      evaluate_phong.diffuse env data mat P N (E l) l = 0 ∧
      evaluate_phong.specular env data mat P N V (E l) l = 0) ∧
    evaluate_phong env data mat P N V =
      some ((data.context.scene.lights.map (fun l =>
        if data.context.params.ambient then
          l.getPower / dot (P - l.getPosition) (P - l.getPosition) * mat.k_a
        else 0)).sum) ∧
    (∀ l ∈ data.context.scene.lights,
      evaluate_phong.ambient data mat P l =
        evaluate_phong.ambient (set_shadows data false) mat P l) := by
  have hzero : ∀ l ∈ data.context.scene.lights,
      evaluate_phong.diffuse env data mat P N (E l) l = 0 ∧
      evaluate_phong.specular env data mat P N V (E l) l = 0 := by
    intro l hl
    have hI := illumination_of_visibility_zero env data P N (E l) l
      (visibility_of_occluded env data P l hsh (hvis l hl))
    constructor
    · simp only [evaluate_phong.diffuse, hI]
      split_ifs
      · apply Vec3.ext <;> simp
      · rfl
    · simp only [evaluate_phong.specular, hI]
      split_ifs
      · apply Vec3.ext <;> simp
      · rfl
  refine ⟨hzero, ?_, fun l _ => (ambient_set_shadows data mat P l false).symm⟩
  rw [evaluate_phong_eq_sum env data mat P N V E hN hV hE]
  congr 1
  apply congrArg
  apply List.map_congr_left
  intro l hl
  rw [(hzero l hl).1, (hzero l hl).2, zero_add, zero_add]
  rfl

/-- Witness of C7: the scene of the witness of C6 with the light occluded;
only `k_a` is left. -/
theorem evaluate_phong_all_occluded_witness :
    evaluate_phong
      (⟨1 / 1000, Real.sqrt, fun x y => x ^ y, fun I n => (2 * dot n I) * n - I,
        fun _ _ _ => none, fun _ _ _ => 0, fun _ _ _ => false, fun _ _ _ => 0⟩ : Cglib ℝ)
      ⟨⟨⟨4, true, true, true, true, false, false, false, false, 1 / 1000⟩,
        ⟨[⟨fun _ => some ⟨4, 4, 4⟩, ⟨0, 0, 2⟩, ⟨4, 4, 4⟩⟩]⟩⟩, true, 0, 0⟩
      ⟨⟨1 / 10, 1 / 10, 1 / 10⟩, ⟨1 / 2, 1 / 4, 0⟩, ⟨1 / 5, 1 / 5, 1 / 5⟩, 1⟩
      ⟨0, 0, 0⟩ ⟨0, 0, 1⟩ ⟨0, 0, 1⟩ = some ⟨1 / 10, 1 / 10, 1 / 10⟩ := by
  rw [(evaluate_phong_all_occluded _ _ _ _ _ _ (fun _ => ⟨4, 4, 4⟩)
    (by simp [length, dot]) (by simp [length, dot])
    (by intro l hl; simp only [List.mem_singleton] at hl; subst hl; rfl)
    rfl (by intro l _; rfl)).2.1]
  simp [dot, Vec3.ext_iff3]
  norm_num

/-- C8: with diffuse, specular and shadows disabled and ambient enabled, over
the reals and for every `P`, `N`, `V` passing the assertions, every material and
every light list whose emission queries return: the diffuse and the specular
term of every light are exactly zero, whatever the emission, and
`evaluate_phong` returns the sum over the lights of `getPower()/|P-pos|² * k_a`,
an expression in which `N`, `V`, `k_d`, `k_s`, `n` and the emission do not
occur. The toggle `shadows` plays no part: this holds with it off and on. -/
theorem evaluate_phong_ambient_only (env : Cglib ℝ) (data : RenderData ℝ)
    (mat : MaterialSample ℝ) (P N V : Vec3 ℝ) (E : Light ℝ → Vec3 ℝ)
    (hN : abs (length env.sqrt N - 1) < env.EPSILON)
    (hV : abs (length env.sqrt V - 1) < env.EPSILON)
    (hE : ∀ l ∈ data.context.scene.lights,
      l.getEmission (-(normalize env.sqrt (l.getPosition - P))) = some (E l))
    (hdiffuse : data.context.params.diffuse = false)
    (hspecular : data.context.params.specular = false)
    (hambient : data.context.params.ambient = true) :
    (∀ (l : Light ℝ) (e : Vec3 ℝ),
      evaluate_phong.diffuse env data mat P N e l = 0 ∧
      evaluate_phong.specular env data mat P N V e l = 0) ∧
    evaluate_phong env data mat P N V =
      some ((data.context.scene.lights.map (fun l =>
        l.getPower / dot (P - l.getPosition) (P - l.getPosition) * mat.k_a)).sum) := by
  have hzero : ∀ (l : Light ℝ) (e : Vec3 ℝ),
      evaluate_phong.diffuse env data mat P N e l = 0 ∧
      evaluate_phong.specular env data mat P N V e l = 0 := by
    intro l e
    simp [evaluate_phong.diffuse, evaluate_phong.specular, hdiffuse, hspecular]
  refine ⟨hzero, ?_⟩
  rw [evaluate_phong_eq_sum env data mat P N V E hN hV hE]
  congr 1
  apply congrArg
  apply List.map_congr_left
  intro l _
  rw [(hzero l (E l)).1, (hzero l (E l)).2, zero_add, zero_add]
  simp [evaluate_phong.ambient, hambient]

/-- Witness of C8: a spot light of power `(4,4,4)` at `(0,0,2)` shining down on
`P = (0,0,0)`, only the ambient toggle on: the result is `k_a`. -/
theorem evaluate_phong_ambient_only_witness :
    evaluate_phong
      (⟨1 / 1000, Real.sqrt, fun x y => x ^ y, fun I n => (2 * dot n I) * n - I,
        fun _ _ _ => none, fun _ _ _ => 0, fun _ _ _ => true, fun _ _ _ => 0⟩ : Cglib ℝ)
      ⟨⟨⟨4, false, true, false, false, false, false, false, false, 1 / 1000⟩,
        ⟨[SpotLight.toLight (1 / 1000) Real.sqrt (fun x y => x ^ y)
            ⟨⟨0, 0, 2⟩, ⟨4, 4, 4⟩, ⟨0, 0, -1⟩, 1⟩]⟩⟩, true, 0, 0⟩
      ⟨⟨1 / 10, 1 / 10, 1 / 10⟩, ⟨1 / 2, 1 / 4, 0⟩, ⟨1 / 5, 1 / 5, 1 / 5⟩, 1⟩
      ⟨0, 0, 0⟩ ⟨0, 0, 1⟩ ⟨0, 0, 1⟩ = some ⟨1 / 10, 1 / 10, 1 / 10⟩ := by
  have hL : Vec3.normalize Real.sqrt ((⟨0, 0, 2⟩ : Vec3 ℝ) - ⟨0, 0, 0⟩) = ⟨0, 0, 1⟩ := by
    have h4 : dot ((⟨0, 0, 2⟩ : Vec3 ℝ) - ⟨0, 0, 0⟩) (⟨0, 0, 2⟩ - ⟨0, 0, 0⟩) = 4 := by
      simp [dot]; norm_num
    rw [Vec3.normalize, h4, sqrt_four]
    simp [Vec3.ext_iff3]
  rw [(evaluate_phong_ambient_only _ _ _ _ _ _ (fun _ => ⟨8, 8, 8⟩)
    (by simp [length, dot]) (by simp [length, dot])
    (by
      intro l hl
      simp only [List.mem_singleton] at hl
      subst hl
      simp only [SpotLight.toLight, hL]
      simp [SpotLight.getEmission, cg_assert, length, dot, glm_max, Vec3.ext_iff3]
      norm_num)
    rfl rfl rfl).2]
  simp [SpotLight.toLight, dot, Vec3.ext_iff3]
  norm_num

/-- The three terms of a light under `set_toggles`, in terms of the
illumination under the original render data, provided `visible` answers the
same for both. -/
theorem terms_set_toggles (env : Cglib α) (data : RenderData α) (mat : MaterialSample α)
    (P N V e : Vec3 α) (l : Light α) (a d s : Bool)
    (hvis : data.context.params.shadows = true →
      env.visible (set_toggles data a d s) P l.getPosition =
        env.visible data P l.getPosition) :
    evaluate_phong.diffuse env (set_toggles data a d s) mat P N e l =
        (if d then evaluate_phong.illumination env data P N e l * mat.k_d else 0) ∧
    evaluate_phong.specular env (set_toggles data a d s) mat P N V e l =
        (if s then evaluate_phong.illumination env data P N e l * mat.k_s *
          env.pow (glm_max 0 (dot V (env.reflect (evaluate_phong.L env P l) N))) mat.n
          else 0) ∧
    evaluate_phong.ambient (set_toggles data a d s) mat P l =
        (if a then l.getPower / dot (P - l.getPosition) (P - l.getPosition) * mat.k_a
          else 0) := by
  have hv : evaluate_phong.visibility env (set_toggles data a d s) P l =
      evaluate_phong.visibility env data P l := by
    unfold evaluate_phong.visibility
    show (if data.context.params.shadows = true then _ else _) = _
    by_cases hsh : data.context.params.shadows = true
    · rw [if_pos hsh, if_pos hsh, hvis hsh]
    · rw [if_neg hsh, if_neg hsh]
  have hI : evaluate_phong.illumination env (set_toggles data a d s) P N e l =
      evaluate_phong.illumination env data P N e l := by
    unfold evaluate_phong.illumination
    rw [hv]
  refine ⟨?_, ?_, ?_⟩
  · simp only [evaluate_phong.diffuse, hI]; rfl
  · simp only [evaluate_phong.specular, hI]; rfl
  · rfl

/-- A sum of zero colours is the zero colour. -/
theorem sum_map_zero_colour {β : Type} (ls : List β) :
    (ls.map (fun _ => (0 : Vec3 α))).sum = 0 := by
  induction ls with
  | nil => rfl
  | cons _ _ ih => rw [List.map_cons, List.sum_cons, ih, add_zero]

/-- C9: the toggles of `evaluate_phong` compose additively. Over the reals, for
fixed scene, material, `P`, `N`, `V` and shadows setting, with the assertions
passing, the emission queries returning and `visible` not depending on the
three toggles: the result with toggles `(ambient, diffuse, specular) = (a, d, s)`
is the sum of the results with `(a, off, off)`, `(off, d, off)` and
`(off, off, s)`, and the result with all three off is the zero colour. So
switching one toggle off replaces its summand by zero and keeps the other two. -/
theorem evaluate_phong_toggles_additive (env : Cglib ℝ) (data : RenderData ℝ)
    (mat : MaterialSample ℝ) (P N V : Vec3 ℝ) (E : Light ℝ → Vec3 ℝ) (a d s : Bool)
    (hN : abs (length env.sqrt N - 1) < env.EPSILON)
    (hV : abs (length env.sqrt V - 1) < env.EPSILON)
    (hE : ∀ l ∈ data.context.scene.lights,
      l.getEmission (-(normalize env.sqrt (l.getPosition - P))) = some (E l))
    (hvis : data.context.params.shadows = true →
      ∀ (a' d' s' : Bool), ∀ l ∈ data.context.scene.lights,
        env.visible (set_toggles data a' d' s') P l.getPosition =
          env.visible data P l.getPosition) :
    ∃ r ra rd rs : Vec3 ℝ,
      evaluate_phong env (set_toggles data a d s) mat P N V = some r ∧
      evaluate_phong env (set_toggles data a false false) mat P N V = some ra ∧
      evaluate_phong env (set_toggles data false d false) mat P N V = some rd ∧
      evaluate_phong env (set_toggles data false false s) mat P N V = some rs ∧
      r = ra + rd + rs ∧
      evaluate_phong env (set_toggles data false false false) mat P N V = some 0 := by
  have key : ∀ a' d' s' : Bool,
      evaluate_phong env (set_toggles data a' d' s') mat P N V =
        some ((data.context.scene.lights.map (fun l =>
            if d' then evaluate_phong.illumination env data P N (E l) l * mat.k_d
            else 0)).sum +
          (data.context.scene.lights.map (fun l =>
            if s' then evaluate_phong.illumination env data P N (E l) l * mat.k_s *
              env.pow (glm_max 0 (dot V (env.reflect (evaluate_phong.L env P l) N))) mat.n
            else 0)).sum +
          (data.context.scene.lights.map (fun l =>
            if a' then l.getPower / dot (P - l.getPosition) (P - l.getPosition) * mat.k_a
            else 0)).sum) := by
    intro a' d' s'
    rw [evaluate_phong_eq_sum env (set_toggles data a' d' s') mat P N V E hN hV hE,
      ← List.sum_map_add, ← List.sum_map_add]
    congr 1
    apply congrArg
    apply List.map_congr_left
    intro l hl
    obtain ⟨h1, h2, h3⟩ := terms_set_toggles env data mat P N V (E l) l a' d' s'
      (fun hsh => hvis hsh a' d' s' l hl)
    rw [h1, h2, h3]
  refine ⟨_, _, _, _, key a d s, key a false false, key false d false, key false false s,
    ?_, ?_⟩
  · simp only [Bool.false_eq_true, if_false, sum_map_zero_colour, add_zero, zero_add]
    abel
  · rw [key false false false]
    simp only [Bool.false_eq_true, if_false, sum_map_zero_colour, add_zero]

/-- Witness of C9: the scene of the witness of C6, where `visible` is constant,
with all three toggles switched on. -/
theorem evaluate_phong_toggles_additive_witness :
    ∃ r ra rd rs : Vec3 ℝ,
      evaluate_phong
        (⟨1 / 1000, Real.sqrt, fun x y => x ^ y, fun I n => (2 * dot n I) * n - I,
          fun _ _ _ => none, fun _ _ _ => 0, fun _ _ _ => true, fun _ _ _ => 0⟩ : Cglib ℝ)
        (set_toggles ⟨⟨⟨4, true, false, false, false, false, false, false, false, 1 / 1000⟩,
          ⟨[⟨fun _ => some ⟨4, 4, 4⟩, ⟨0, 0, 2⟩, ⟨4, 4, 4⟩⟩]⟩⟩, true, 0, 0⟩ true true true)
        ⟨⟨1 / 10, 1 / 10, 1 / 10⟩, ⟨1 / 2, 1 / 4, 0⟩, ⟨1 / 5, 1 / 5, 1 / 5⟩, 1⟩
        ⟨0, 0, 0⟩ ⟨0, 0, 1⟩ ⟨0, 0, 1⟩ = some r ∧
      evaluate_phong
        (⟨1 / 1000, Real.sqrt, fun x y => x ^ y, fun I n => (2 * dot n I) * n - I,
          fun _ _ _ => none, fun _ _ _ => 0, fun _ _ _ => true, fun _ _ _ => 0⟩ : Cglib ℝ)
        (set_toggles ⟨⟨⟨4, true, false, false, false, false, false, false, false, 1 / 1000⟩,
          ⟨[⟨fun _ => some ⟨4, 4, 4⟩, ⟨0, 0, 2⟩, ⟨4, 4, 4⟩⟩]⟩⟩, true, 0, 0⟩ true false false)
        ⟨⟨1 / 10, 1 / 10, 1 / 10⟩, ⟨1 / 2, 1 / 4, 0⟩, ⟨1 / 5, 1 / 5, 1 / 5⟩, 1⟩
        ⟨0, 0, 0⟩ ⟨0, 0, 1⟩ ⟨0, 0, 1⟩ = some ra ∧
      evaluate_phong
        (⟨1 / 1000, Real.sqrt, fun x y => x ^ y, fun I n => (2 * dot n I) * n - I,
          fun _ _ _ => none, fun _ _ _ => 0, fun _ _ _ => true, fun _ _ _ => 0⟩ : Cglib ℝ)
        (set_toggles ⟨⟨⟨4, true, false, false, false, false, false, false, false, 1 / 1000⟩,
          ⟨[⟨fun _ => some ⟨4, 4, 4⟩, ⟨0, 0, 2⟩, ⟨4, 4, 4⟩⟩]⟩⟩, true, 0, 0⟩ false true false)
        ⟨⟨1 / 10, 1 / 10, 1 / 10⟩, ⟨1 / 2, 1 / 4, 0⟩, ⟨1 / 5, 1 / 5, 1 / 5⟩, 1⟩
        ⟨0, 0, 0⟩ ⟨0, 0, 1⟩ ⟨0, 0, 1⟩ = some rd ∧
      evaluate_phong
        (⟨1 / 1000, Real.sqrt, fun x y => x ^ y, fun I n => (2 * dot n I) * n - I,
          fun _ _ _ => none, fun _ _ _ => 0, fun _ _ _ => true, fun _ _ _ => 0⟩ : Cglib ℝ)
        (set_toggles ⟨⟨⟨4, true, false, false, false, false, false, false, false, 1 / 1000⟩,
          ⟨[⟨fun _ => some ⟨4, 4, 4⟩, ⟨0, 0, 2⟩, ⟨4, 4, 4⟩⟩]⟩⟩, true, 0, 0⟩ false false true)
        ⟨⟨1 / 10, 1 / 10, 1 / 10⟩, ⟨1 / 2, 1 / 4, 0⟩, ⟨1 / 5, 1 / 5, 1 / 5⟩, 1⟩
        ⟨0, 0, 0⟩ ⟨0, 0, 1⟩ ⟨0, 0, 1⟩ = some rs ∧
      r = ra + rd + rs ∧
      evaluate_phong
        (⟨1 / 1000, Real.sqrt, fun x y => x ^ y, fun I n => (2 * dot n I) * n - I,
          fun _ _ _ => none, fun _ _ _ => 0, fun _ _ _ => true, fun _ _ _ => 0⟩ : Cglib ℝ)
        (set_toggles ⟨⟨⟨4, true, false, false, false, false, false, false, false, 1 / 1000⟩,
          ⟨[⟨fun _ => some ⟨4, 4, 4⟩, ⟨0, 0, 2⟩, ⟨4, 4, 4⟩⟩]⟩⟩, true, 0, 0⟩ false false false)
        ⟨⟨1 / 10, 1 / 10, 1 / 10⟩, ⟨1 / 2, 1 / 4, 0⟩, ⟨1 / 5, 1 / 5, 1 / 5⟩, 1⟩
        ⟨0, 0, 0⟩ ⟨0, 0, 1⟩ ⟨0, 0, 1⟩ = some 0 :=
  evaluate_phong_toggles_additive _ _ _ _ _ _ (fun _ => ⟨4, 4, 4⟩) true true true
    (by simp [length, dot]) (by simp [length, dot])
    (by intro l hl; simp only [List.mem_singleton] at hl; subst hl; rfl)
    (by intro _ _ _ _ _ _; rfl)

/-! ## Claims on the secondary rays -/

/-- C10: when `refract(V, N, eta)` reports failure, `evaluate_transmission`
returns the zero colour and makes no call of `trace_recursive`, and so does
`handle_transmissive_material_single_ior` for that `eta`, over the reals, for
every render data (fresnel toggle on or off) and every `fresnel` routine
(every coefficient `f`). -/
theorem transmission_zero_of_refract_failure (env : Cglib ℝ) (data : RenderData ℝ)
    (depth : Int) (P N V : Vec3 ℝ) (eta : ℝ)
    (hrefract : env.refract V N eta = none) :
    evaluate_transmission env data depth P N V eta = (0, []) ∧
    handle_transmissive_material_single_ior env data depth P N V eta = (0, []) := by
  have ht : evaluate_transmission env data depth P N V eta = (0, []) := by
    simp [evaluate_transmission, hrefract]
  refine ⟨ht, ?_⟩
  unfold handle_transmissive_material_single_ior
  rw [ht]
  split_ifs
  · simp only [List.append_nil, Prod.mk.injEq, and_true]
    apply Vec3.ext <;> simp
  · rfl

/-- Witness of C10: a `refract` that always fails, a Fresnel coefficient of
`1/2` with the fresnel toggle on, and a `trace_recursive` that would return
white. -/
theorem transmission_zero_of_refract_failure_witness :
    evaluate_transmission
      (⟨1 / 1000, Real.sqrt, fun x y => x ^ y, fun I n => (2 * dot n I) * n - I,
        fun _ _ _ => none, fun _ _ _ => 1 / 2, fun _ _ _ => true,
        fun _ _ _ => ⟨1, 1, 1⟩⟩ : Cglib ℝ)
      ⟨⟨⟨4, true, true, true, true, true, true, false, true, 1 / 1000⟩, ⟨[]⟩⟩, true, 0, 0⟩
      0 ⟨0, 0, 0⟩ ⟨0, 0, 1⟩ ⟨0, 0, 1⟩ (3 / 2) = (0, []) ∧
    handle_transmissive_material_single_ior
      (⟨1 / 1000, Real.sqrt, fun x y => x ^ y, fun I n => (2 * dot n I) * n - I,
        fun _ _ _ => none, fun _ _ _ => 1 / 2, fun _ _ _ => true,
        fun _ _ _ => ⟨1, 1, 1⟩⟩ : Cglib ℝ)
      ⟨⟨⟨4, true, true, true, true, true, true, false, true, 1 / 1000⟩, ⟨[]⟩⟩, true, 0, 0⟩
      0 ⟨0, 0, 0⟩ ⟨0, 0, 1⟩ ⟨0, 0, 1⟩ (3 / 2) = (0, []) :=
  transmission_zero_of_refract_failure _ _ 0 ⟨0, 0, 0⟩ ⟨0, 0, 1⟩ ⟨0, 0, 1⟩ (3 / 2) rfl

/-- The transmission colour depends on the render data only through
`ray_epsilon` and through the answer of `trace_recursive`. -/
theorem evaluate_transmission_congr (env : Cglib α) (data data' : RenderData α)
    (depth : Int) (P N V : Vec3 α) (eta : α)
    (heps : data'.context.params.ray_epsilon = data.context.params.ray_epsilon)
    (htrace : ∀ ray k, env.trace_recursive data' ray k = env.trace_recursive data ray k) :
    evaluate_transmission env data' depth P N V eta =
      evaluate_transmission env data depth P N V eta := by
  unfold evaluate_transmission
  cases env.refract V N eta with
  | none => rfl
  | some RV => simp only [heps, htrace]

/-- The colour of the Fresnel blend of a colour with itself is that colour. -/
theorem fresnel_blend_self (f : α) (T : Vec3 α) : f * T + (1 - f) * T = T := by
  apply Vec3.ext <;> simp only [add_x, add_y, add_z, smul_x, smul_y, smul_z] <;> ring

/-- The colour of `handle_transmissive_material_single_ior` is the colour of
`evaluate_transmission`, with the fresnel toggle on and off. -/
theorem single_ior_colour (env : Cglib α) (data : RenderData α)
    (depth : Int) (P N V : Vec3 α) (eta : α) :
    (handle_transmissive_material_single_ior env data depth P N V eta).1 =
      (evaluate_transmission env data depth P N V eta).1 := by
  unfold handle_transmissive_material_single_ior
  split_ifs
  · exact fresnel_blend_self _ _
  · rfl

/-- C11: over the reals, with `trace_recursive`, `refract` and `fresnel`
functions of their arguments, the colour returned by
`handle_transmissive_material_single_ior` is the colour of
`evaluate_transmission(data, depth, P, N, V, eta)` for every render data, so
with the fresnel toggle on as well as off and for every coefficient `f`; with
the toggle on the transmission is evaluated twice, with it off once; and when
`trace_recursive` answers the same for the two settings of the toggle, the
colour with fresnel enabled is the colour with fresnel disabled. -/
theorem single_ior_fresnel_is_transmission (env : Cglib ℝ) (data : RenderData ℝ)
    (depth : Int) (P N V : Vec3 ℝ) (eta : ℝ) :
    (handle_transmissive_material_single_ior env data depth P N V eta).1 =
      (evaluate_transmission env data depth P N V eta).1 ∧
    (data.context.params.fresnel = true →
      (handle_transmissive_material_single_ior env data depth P N V eta).2 =
        (evaluate_transmission env data depth P N V eta).2 ++
          (evaluate_transmission env data depth P N V eta).2) ∧
    (data.context.params.fresnel = false →
      handle_transmissive_material_single_ior env data depth P N V eta =
        evaluate_transmission env data depth P N V eta) ∧
    ((∀ ray k, env.trace_recursive (set_fresnel data true) ray k =
        env.trace_recursive (set_fresnel data false) ray k) →
      (handle_transmissive_material_single_ior env (set_fresnel data true)
          depth P N V eta).1 =
        (handle_transmissive_material_single_ior env (set_fresnel data false)
          depth P N V eta).1) := by
  refine ⟨single_ior_colour env data depth P N V eta, ?_, ?_, ?_⟩
  · intro h
    simp [handle_transmissive_material_single_ior, h]
  · intro h
    simp [handle_transmissive_material_single_ior, h]
  · intro htrace
    rw [single_ior_colour, single_ior_colour,
      evaluate_transmission_congr env (set_fresnel data false) (set_fresnel data true)
        depth P N V eta rfl htrace]

/-- Witness of C11: a `refract` that answers `(0,0,-1)`, a coefficient `1/2`
and a `trace_recursive` that returns `(1/2, 1/4, 1)`: with fresnel on the
colour is that colour, and the ray was traced twice at depth `1`. -/
theorem single_ior_fresnel_is_transmission_witness :
    handle_transmissive_material_single_ior
      (⟨1 / 1000, Real.sqrt, fun x y => x ^ y, fun I n => (2 * dot n I) * n - I,
        fun _ _ _ => some ⟨0, 0, -1⟩, fun _ _ _ => 1 / 2, fun _ _ _ => true,
        fun _ _ _ => ⟨1 / 2, 1 / 4, 1⟩⟩ : Cglib ℝ)
      ⟨⟨⟨4, true, true, true, true, true, true, false, true, 1 / 1000⟩, ⟨[]⟩⟩, true, 0, 0⟩
      0 ⟨0, 0, 0⟩ ⟨0, 0, 1⟩ ⟨0, 0, 1⟩ (3 / 2) =
    (⟨1 / 2, 1 / 4, 1⟩,
      [(⟨(⟨0, 0, 0⟩ : Vec3 ℝ) + (1 / 1000 : ℝ) * (⟨0, 0, -1⟩ : Vec3 ℝ), ⟨0, 0, -1⟩⟩, 0 + 1),
       (⟨(⟨0, 0, 0⟩ : Vec3 ℝ) + (1 / 1000 : ℝ) * (⟨0, 0, -1⟩ : Vec3 ℝ), ⟨0, 0, -1⟩⟩, 0 + 1)]) := by
  have H := single_ior_fresnel_is_transmission
    (⟨1 / 1000, Real.sqrt, fun x y => x ^ y, fun I n => (2 * dot n I) * n - I,
      fun _ _ _ => some ⟨0, 0, -1⟩, fun _ _ _ => 1 / 2, fun _ _ _ => true,
      fun _ _ _ => ⟨1 / 2, 1 / 4, 1⟩⟩ : Cglib ℝ)
    ⟨⟨⟨4, true, true, true, true, true, true, false, true, 1 / 1000⟩, ⟨[]⟩⟩, true, 0, 0⟩
    0 ⟨0, 0, 0⟩ ⟨0, 0, 1⟩ ⟨0, 0, 1⟩ (3 / 2)
  refine Prod.ext ?_ ?_
  · rw [H.1]; rfl
  · rw [H.2.1 rfl]; rfl

/-- The result of `handle_transmissive_material_single_ior` depends on the
render data only through `fresnel`, `ray_epsilon` and the answer of
`trace_recursive`. -/
theorem single_ior_congr (env : Cglib α) (data data' : RenderData α)
    (depth : Int) (P N V : Vec3 α) (eta : α)
    (hfresnel : data'.context.params.fresnel = data.context.params.fresnel)
    (heps : data'.context.params.ray_epsilon = data.context.params.ray_epsilon)
    (htrace : ∀ ray k, env.trace_recursive data' ray k = env.trace_recursive data ray k) :
    handle_transmissive_material_single_ior env data' depth P N V eta =
      handle_transmissive_material_single_ior env data depth P N V eta := by
  unfold handle_transmissive_material_single_ior
  rw [hfresnel, evaluate_transmission_congr env data data' depth P N V eta heps htrace]

/-- C12: for every `P`, `N`, `V`, depth and index `e`, over the reals,
`handle_transmissive_material` called with the channel indices `(e, e, e)`
returns, for every render data and so with dispersion enabled as well as
disabled, what `handle_transmissive_material_single_ior` returns at
`eta = e`, the mean `1/3 * (e + e + e)` of the three indices; and when
`trace_recursive` answers the same for the two settings of the dispersion
toggle, the result with dispersion enabled is the result with it disabled. -/
theorem dispersion_equal_indices (env : Cglib ℝ) (data : RenderData ℝ)
    (depth : Int) (P N V : Vec3 ℝ) (e : ℝ) :
    handle_transmissive_material env data depth P N V ⟨e, e, e⟩ =
      handle_transmissive_material_single_ior env data depth P N V e ∧
    ((∀ ray k, env.trace_recursive (set_dispersion data true) ray k =
        env.trace_recursive (set_dispersion data false) ray k) →
      handle_transmissive_material env (set_dispersion data true) depth P N V ⟨e, e, e⟩ =
        handle_transmissive_material env (set_dispersion data false) depth P N V
          ⟨e, e, e⟩) := by
  have key : ∀ data' : RenderData ℝ,
      handle_transmissive_material env data' depth P N V ⟨e, e, e⟩ =
        handle_transmissive_material_single_ior env data' depth P N V e := by
    intro data'
    have hmean : (1 : ℝ) / 3 * (e + e + e) = e := by ring
    simp only [handle_transmissive_material, and_self, not_true_eq_false, and_false,
      if_false, hmean]
  refine ⟨key data, fun htrace => ?_⟩
  rw [key, key]
  exact single_ior_congr env (set_dispersion data false) (set_dispersion data true)
    depth P N V e rfl rfl htrace

/-- Witness of C12: dispersion enabled, indices `(3/2, 3/2, 3/2)`, and a
`trace_recursive` that does not read the render data. -/
theorem dispersion_equal_indices_witness :
    handle_transmissive_material
      (⟨1 / 1000, Real.sqrt, fun x y => x ^ y, fun I n => (2 * dot n I) * n - I,
        fun _ _ _ => some ⟨0, 0, -1⟩, fun _ _ _ => 1 / 2, fun _ _ _ => true,
        fun _ _ _ => ⟨1 / 2, 1 / 4, 1⟩⟩ : Cglib ℝ)
      (set_dispersion
        ⟨⟨⟨4, true, true, true, true, true, true, false, false, 1 / 1000⟩, ⟨[]⟩⟩, true, 0, 0⟩
        true)
      0 ⟨0, 0, 0⟩ ⟨0, 0, 1⟩ ⟨0, 0, 1⟩ ⟨3 / 2, 3 / 2, 3 / 2⟩ =
    handle_transmissive_material
      (⟨1 / 1000, Real.sqrt, fun x y => x ^ y, fun I n => (2 * dot n I) * n - I,
        fun _ _ _ => some ⟨0, 0, -1⟩, fun _ _ _ => 1 / 2, fun _ _ _ => true,
        fun _ _ _ => ⟨1 / 2, 1 / 4, 1⟩⟩ : Cglib ℝ)
      (set_dispersion
        ⟨⟨⟨4, true, true, true, true, true, true, false, false, 1 / 1000⟩, ⟨[]⟩⟩, true, 0, 0⟩
        false)
      0 ⟨0, 0, 0⟩ ⟨0, 0, 1⟩ ⟨0, 0, 1⟩ ⟨3 / 2, 3 / 2, 3 / 2⟩ :=
  (dispersion_equal_indices _ _ 0 ⟨0, 0, 0⟩ ⟨0, 0, 1⟩ ⟨0, 0, 1⟩ (3 / 2)).2
    (fun _ _ => rfl)

/-- C13: with dispersion enabled and channel indices `(e0, e1, e2)` not all
equal, the colour returned by `handle_transmissive_material` has the red
component of the single-index result at `e0`, the green component of the one
at `e1` and the blue component of the one at `e2`; with dispersion disabled,
over the reals, the function returns the single-index result at
`(e0 + e1 + e2)/3`, for every index vector. -/
theorem dispersion_channels (env : Cglib ℝ) (data : RenderData ℝ)
    (depth : Int) (P N V : Vec3 ℝ) (e0 e1 e2 : ℝ) :
    (data.context.params.dispersion = true → ¬ (e0 = e1 ∧ e1 = e2) →
      (handle_transmissive_material env data depth P N V ⟨e0, e1, e2⟩).1 =
        ⟨(handle_transmissive_material_single_ior env data depth P N V e0).1.x,
         (handle_transmissive_material_single_ior env data depth P N V e1).1.y,
         (handle_transmissive_material_single_ior env data depth P N V e2).1.z⟩) ∧
    (data.context.params.dispersion = false →
      handle_transmissive_material env data depth P N V ⟨e0, e1, e2⟩ =
        handle_transmissive_material_single_ior env data depth P N V
          ((e0 + e1 + e2) / 3)) := by
  constructor
  · intro hdisp hne
    have hcond : ¬ (e0 = e1 ∧ e0 = e2) := fun h => hne ⟨h.1, h.1 ▸ h.2⟩
    simp only [handle_transmissive_material, hdisp, hcond, not_false_eq_true, and_self,
      if_true]
  · intro hdisp
    have hmean : (1 : ℝ) / 3 * (e0 + e1 + e2) = (e0 + e1 + e2) / 3 := by ring
    simp only [handle_transmissive_material, hdisp, Bool.false_eq_true, false_and, if_false,
      hmean]

/-- Witness of C13: dispersion enabled, indices `(1, 3/2, 2)`, and a `refract`
that fails for indices above `3/2` only: red and green come from the traced
colour `(1/2, 1/4, 1)`, blue from the zero colour. -/
theorem dispersion_channels_witness :
    (handle_transmissive_material
      (⟨1 / 1000, Real.sqrt, fun x y => x ^ y, fun I n => (2 * dot n I) * n - I,
        fun _ _ eta => if eta ≤ 3 / 2 then some ⟨0, 0, -1⟩ else none,
        fun _ _ _ => 1 / 2, fun _ _ _ => true,
        fun _ _ _ => ⟨1 / 2, 1 / 4, 1⟩⟩ : Cglib ℝ)
      ⟨⟨⟨4, true, true, true, true, true, true, true, false, 1 / 1000⟩, ⟨[]⟩⟩, true, 0, 0⟩
      0 ⟨0, 0, 0⟩ ⟨0, 0, 1⟩ ⟨0, 0, 1⟩ ⟨1, 3 / 2, 2⟩).1 = ⟨1 / 2, 1 / 4, 0⟩ := by
  rw [(dispersion_channels _ _ 0 ⟨0, 0, 0⟩ ⟨0, 0, 1⟩ ⟨0, 0, 1⟩ 1 (3 / 2) 2).1 rfl
    (by norm_num)]
  simp [handle_transmissive_material_single_ior, evaluate_transmission]
  norm_num

/-- C14: for every `P`, `N`, `V`, depth and render data, `evaluate_reflection`
makes one call of `trace_recursive`, for the ray with direction
`R = reflect(V, N)` and origin `P + ray_epsilon * R` at `depth + 1`, and
returns the colour of that call as it is. This holds whatever the reflection
toggle and `max_depth` are: the ray and depth of the call are the same for any
two render data with the same `ray_epsilon`. -/
theorem evaluate_reflection_traces_mirror_ray (env : Cglib ℝ) (data : RenderData ℝ)
    (depth : Int) (P N V : Vec3 ℝ) :
    evaluate_reflection env data depth P N V =
      (env.trace_recursive data
          ⟨P + data.context.params.ray_epsilon * env.reflect V N, env.reflect V N⟩
          (depth + 1),
        [(⟨P + data.context.params.ray_epsilon * env.reflect V N, env.reflect V N⟩,
          depth + 1)]) ∧
    (∀ data' : RenderData ℝ,
      data'.context.params.ray_epsilon = data.context.params.ray_epsilon →
      (evaluate_reflection env data' depth P N V).2 =
        (evaluate_reflection env data depth P N V).2) := by
  refine ⟨rfl, fun data' h => ?_⟩
  simp only [evaluate_reflection, h]

/-- Witness of C14: reflection switched off and `max_depth = 0` at depth `3`:
the mirror ray of `V = (0,0,1)` about `N = (0,0,1)` is still traced, at
depth `4`, and its colour `(1/2, 1/4, 1)` is returned. -/
theorem evaluate_reflection_traces_mirror_ray_witness :
    evaluate_reflection
      (⟨1 / 1000, Real.sqrt, fun x y => x ^ y, fun I n => (2 * dot n I) * n - I,
        fun _ _ _ => none, fun _ _ _ => 1 / 2, fun _ _ _ => true,
        fun _ _ _ => ⟨1 / 2, 1 / 4, 1⟩⟩ : Cglib ℝ)
      ⟨⟨⟨0, true, true, true, true, false, true, false, false, 1 / 1000⟩, ⟨[]⟩⟩, true, 0, 0⟩
      3 ⟨0, 0, 0⟩ ⟨0, 0, 1⟩ ⟨0, 0, 1⟩ =
    (⟨1 / 2, 1 / 4, 1⟩, [(⟨⟨0, 0, 1 / 1000⟩, ⟨0, 0, 1⟩⟩, 4)]) ∧
    (evaluate_reflection
      (⟨1 / 1000, Real.sqrt, fun x y => x ^ y, fun I n => (2 * dot n I) * n - I,
        fun _ _ _ => none, fun _ _ _ => 1 / 2, fun _ _ _ => true,
        fun _ _ _ => ⟨1 / 2, 1 / 4, 1⟩⟩ : Cglib ℝ)
      ⟨⟨⟨7, true, true, true, true, true, true, false, false, 1 / 1000⟩, ⟨[]⟩⟩, true, 0, 0⟩
      3 ⟨0, 0, 0⟩ ⟨0, 0, 1⟩ ⟨0, 0, 1⟩).2 = [(⟨⟨0, 0, 1 / 1000⟩, ⟨0, 0, 1⟩⟩, 4)] := by
  have H := evaluate_reflection_traces_mirror_ray
    (⟨1 / 1000, Real.sqrt, fun x y => x ^ y, fun I n => (2 * dot n I) * n - I,
      fun _ _ _ => none, fun _ _ _ => 1 / 2, fun _ _ _ => true,
      fun _ _ _ => ⟨1 / 2, 1 / 4, 1⟩⟩ : Cglib ℝ)
    ⟨⟨⟨0, true, true, true, true, false, true, false, false, 1 / 1000⟩, ⟨[]⟩⟩, true, 0, 0⟩
    3 ⟨0, 0, 0⟩ ⟨0, 0, 1⟩ ⟨0, 0, 1⟩
  refine ⟨?_, ?_⟩
  · rw [H.1]
    simp [Vec3.ext_iff3, dot]
    norm_num
  · rw [H.2
      ⟨⟨⟨7, true, true, true, true, true, true, false, false, 1 / 1000⟩, ⟨[]⟩⟩, true, 0, 0⟩
      rfl, H.1]
    simp [Vec3.ext_iff3, dot]
    norm_num

/-- C15: over the reals, with the real power as `glm::pow`, for a unit
`omega` (and a positive `EPSILON`, so that the assertion passes),
`SpotLight::getEmission` returns
`power * (2*falloff) * max(0, dot(omega, direction))^falloff`; for
`falloff = 1` and `dot(omega, direction) = 1` this is `2 * power`; and for
`falloff > 0` and `dot(omega, direction) ≤ 0` it is the zero colour. -/
theorem spotlight_emission (EPSILON : ℝ) (self : SpotLight ℝ) (omega : Vec3 ℝ)
    (hε : 0 < EPSILON) (hω : length Real.sqrt omega = 1) :
    SpotLight.getEmission EPSILON Real.sqrt (fun x y => x ^ y) self omega =
      some (self.power * ((2 : ℝ) * self.falloff) *
        (max 0 (dot omega self.direction)) ^ self.falloff) ∧
    (self.falloff = 1 → dot omega self.direction = 1 →
      SpotLight.getEmission EPSILON Real.sqrt (fun x y => x ^ y) self omega =
        some ((2 : ℝ) * self.power)) ∧
    (0 < self.falloff → dot omega self.direction ≤ 0 →
      SpotLight.getEmission EPSILON Real.sqrt (fun x y => x ^ y) self omega = some 0) := by
  have hform : SpotLight.getEmission EPSILON Real.sqrt (fun x y => x ^ y) self omega =
      some (self.power * ((2 : ℝ) * self.falloff) *
        (max 0 (dot omega self.direction)) ^ self.falloff) := by
    simp [SpotLight.getEmission, cg_assert, assert_of_unit EPSILON omega hε hω,
      glm_max_eq_max]
  refine ⟨hform, ?_, ?_⟩
  · intro hf hdot
    rw [hform, hf, hdot]
    congr 1
    apply Vec3.ext <;> simp [mul_comm]
  · intro hf hdot
    rw [hform, max_eq_left hdot, Real.zero_rpow hf.ne']
    congr 1
    apply Vec3.ext <;> simp

/-- Witness of C15: a spot light of power `(3, 2, 1)` and falloff `1` along
`(0,0,-1)`, queried along its axis and against it. -/
theorem spotlight_emission_witness :
    SpotLight.getEmission (1 / 1000) Real.sqrt (fun x y => x ^ y)
        (⟨⟨0, 0, 2⟩, ⟨3, 2, 1⟩, ⟨0, 0, -1⟩, 1⟩ : SpotLight ℝ) ⟨0, 0, -1⟩ =
      some ((2 : ℝ) * (⟨3, 2, 1⟩ : Vec3 ℝ)) ∧
    SpotLight.getEmission (1 / 1000) Real.sqrt (fun x y => x ^ y)
        (⟨⟨0, 0, 2⟩, ⟨3, 2, 1⟩, ⟨0, 0, -1⟩, 1⟩ : SpotLight ℝ) ⟨0, 0, 1⟩ = some 0 :=
  ⟨(spotlight_emission (1 / 1000) ⟨⟨0, 0, 2⟩, ⟨3, 2, 1⟩, ⟨0, 0, -1⟩, 1⟩ ⟨0, 0, -1⟩
      (by norm_num) (by simp [length, dot])).2.1 rfl (by simp [dot]),
   (spotlight_emission (1 / 1000) ⟨⟨0, 0, 2⟩, ⟨3, 2, 1⟩, ⟨0, 0, -1⟩, 1⟩ ⟨0, 0, 1⟩
      (by norm_num) (by simp [length, dot])).2.2 (by norm_num) (by simp [dot])⟩

/-! ## The calls of `trace_recursive` -/

/-- Every call recorded by `evaluate_reflection` has depth `depth + 1` and a
ray that starts at `P + ray_epsilon * direction`. -/
theorem calls_evaluate_reflection (env : Cglib α) (data : RenderData α) (depth : Int)
    (P N V : Vec3 α) :
    ∀ call ∈ (evaluate_reflection env data depth P N V).2,
      call.2 = depth + 1 ∧
      call.1.origin = P + data.context.params.ray_epsilon * call.1.direction := by
  intro call hcall
  simp only [evaluate_reflection, List.mem_singleton] at hcall
  subst hcall
  exact ⟨rfl, rfl⟩

/-- Every call recorded by `evaluate_transmission` has depth `depth + 1` and a
ray that starts at `P + ray_epsilon * direction`. -/
theorem calls_evaluate_transmission (env : Cglib α) (data : RenderData α) (depth : Int)
    (P N V : Vec3 α) (eta : α) :
    ∀ call ∈ (evaluate_transmission env data depth P N V eta).2,
      call.2 = depth + 1 ∧
      call.1.origin = P + data.context.params.ray_epsilon * call.1.direction := by
  intro call hcall
  unfold evaluate_transmission at hcall
  cases hr : env.refract V N eta with
  | none => simp [hr] at hcall
  | some RV =>
    simp only [hr, List.mem_singleton] at hcall
    subst hcall
    exact ⟨rfl, rfl⟩

/-- Every call recorded by `handle_transmissive_material_single_ior` has depth
`depth + 1` and a ray that starts at `P + ray_epsilon * direction`. -/
theorem calls_single_ior (env : Cglib α) (data : RenderData α) (depth : Int)
    (P N V : Vec3 α) (eta : α) :
    ∀ call ∈ (handle_transmissive_material_single_ior env data depth P N V eta).2,
      call.2 = depth + 1 ∧
      call.1.origin = P + data.context.params.ray_epsilon * call.1.direction := by
  intro call hcall
  unfold handle_transmissive_material_single_ior at hcall
  split_ifs at hcall
  · simp only [List.mem_append, or_self] at hcall
    exact calls_evaluate_transmission env data depth P N V eta call hcall
  · exact calls_evaluate_transmission env data depth P N V eta call hcall

/-- Every call recorded by `handle_transmissive_material` has depth
`depth + 1` and a ray that starts at `P + ray_epsilon * direction`. -/
theorem calls_handle_transmissive_material (env : Cglib α) (data : RenderData α)
    (depth : Int) (P N V : Vec3 α) (eta_of_channel : Vec3 α) :
    ∀ call ∈ (handle_transmissive_material env data depth P N V eta_of_channel).2,
      call.2 = depth + 1 ∧
      call.1.origin = P + data.context.params.ray_epsilon * call.1.direction := by
  intro call hcall
  unfold handle_transmissive_material at hcall
  split_ifs at hcall
  · simp only [List.mem_append] at hcall
    rcases hcall with (h | h) | h
    · exact calls_single_ior env data depth P N V _ call h
    · exact calls_single_ior env data depth P N V _ call h
    · exact calls_single_ior env data depth P N V _ call h
  · exact calls_single_ior env data depth P N V _ call hcall

/-- C16: every call of `trace_recursive` made by `evaluate_reflection`,
`evaluate_transmission`, `handle_transmissive_material_single_ior` and
`handle_transmissive_material` at depth `d` has depth `d + 1` and a ray whose
origin is `P + ray_epsilon * dir`, `dir` being the direction of that ray; this
for every render data, so for every setting of the fresnel and dispersion
toggles. The depth is an unbounded integer here. -/
theorem secondary_calls_depth_succ (env : Cglib ℝ) (data : RenderData ℝ) (d : Int)
    (P N V : Vec3 ℝ) (eta : ℝ) (eta_of_channel : Vec3 ℝ) :
    (∀ call ∈ (evaluate_reflection env data d P N V).2,
      call.2 = d + 1 ∧
      call.1.origin = P + data.context.params.ray_epsilon * call.1.direction) ∧
    (∀ call ∈ (evaluate_transmission env data d P N V eta).2,
      call.2 = d + 1 ∧
      call.1.origin = P + data.context.params.ray_epsilon * call.1.direction) ∧
    (∀ call ∈ (handle_transmissive_material_single_ior env data d P N V eta).2,
      call.2 = d + 1 ∧
      call.1.origin = P + data.context.params.ray_epsilon * call.1.direction) ∧
    (∀ call ∈ (handle_transmissive_material env data d P N V eta_of_channel).2,
      call.2 = d + 1 ∧
      call.1.origin = P + data.context.params.ray_epsilon * call.1.direction) :=
  ⟨calls_evaluate_reflection env data d P N V,
   calls_evaluate_transmission env data d P N V eta,
   calls_single_ior env data d P N V eta,
   calls_handle_transmissive_material env data d P N V eta_of_channel⟩

/-- Witness of C16: fresnel and dispersion on, distinct channel indices, depth
`2`: `handle_transmissive_material` makes six calls, each at depth `3`. -/
theorem secondary_calls_depth_succ_witness :
    ((handle_transmissive_material
      (⟨1 / 1000, Real.sqrt, fun x y => x ^ y, fun I n => (2 * dot n I) * n - I,
        fun _ _ _ => some ⟨0, 0, -1⟩, fun _ _ _ => 1 / 2, fun _ _ _ => true,
        fun _ _ _ => ⟨1 / 2, 1 / 4, 1⟩⟩ : Cglib ℝ)
      ⟨⟨⟨4, true, true, true, true, true, true, true, true, 1 / 1000⟩, ⟨[]⟩⟩, true, 0, 0⟩
      2 ⟨0, 0, 0⟩ ⟨0, 0, 1⟩ ⟨0, 0, 1⟩ ⟨1, 3 / 2, 2⟩).2).length = 6 ∧
    ∀ call ∈ (handle_transmissive_material
      (⟨1 / 1000, Real.sqrt, fun x y => x ^ y, fun I n => (2 * dot n I) * n - I,
        fun _ _ _ => some ⟨0, 0, -1⟩, fun _ _ _ => 1 / 2, fun _ _ _ => true,
        fun _ _ _ => ⟨1 / 2, 1 / 4, 1⟩⟩ : Cglib ℝ)
      ⟨⟨⟨4, true, true, true, true, true, true, true, true, 1 / 1000⟩, ⟨[]⟩⟩, true, 0, 0⟩
      2 ⟨0, 0, 0⟩ ⟨0, 0, 1⟩ ⟨0, 0, 1⟩ ⟨1, 3 / 2, 2⟩).2,
      call.2 = 3 ∧
      call.1.origin = (⟨0, 0, 0⟩ : Vec3 ℝ) + (1 / 1000 : ℝ) * call.1.direction := by
  refine ⟨?_, (secondary_calls_depth_succ _ _ 2 ⟨0, 0, 0⟩ ⟨0, 0, 1⟩ ⟨0, 0, 1⟩ 1
    ⟨1, 3 / 2, 2⟩).2.2.2⟩
  simp [handle_transmissive_material, handle_transmissive_material_single_ior,
    evaluate_transmission]

/-! ## `intersect_sphere`: origin on the surface, order of the roots -/

/-- The parameter `0` lies on the sphere exactly when the origin does. -/
theorem onSphere_zero_iff (o d c : Vec3 ℝ) (r : ℝ) :
    OnSphere o d c r 0 ↔ dot (o - c) (o - c) = r * r := by
  rw [onSphere_iff_quadratic]
  simp only [intersect_sphere.c, mul_zero, zero_add]
  exact sub_eq_zero

/-- C19: over the reals, for a unit direction and an origin on the surface of
the sphere (`|o - c|² = r²`), `intersect_sphere` returns `true` and writes
`t = 0`, for every direction, pointing into the sphere or out of it. -/
theorem intersect_sphere_origin_on_surface (EPSILON : ℝ) (o d c : Vec3 ℝ) (r t0 : ℝ)
    (hε : 0 < EPSILON) (hd : length Real.sqrt d = 1)
    (hon : dot (o - c) (o - c) = r * r) :
    intersect_sphere EPSILON Real.sqrt o d c r t0 = some (true, 0) := by
  have ha := a_eq_one_of_unit d hd
  have hc : intersect_sphere.c o c r = 0 := by
    simp only [intersect_sphere.c]; linarith
  have hdisc : 0 ≤ intersect_sphere.discriminant o d c r := by
    simp only [intersect_sphere.discriminant, ha, hc]
    nlinarith [mul_self_nonneg (intersect_sphere.b o d c)]
  obtain ⟨hle, hroots⟩ := roots_of_discriminant_nonneg o d c r hd hdisc
  have h0 := (hroots 0).1 ((onSphere_zero_iff o d c r).2 hon)
  rw [intersect_sphere_unit EPSILON o d c r t0 hε hd]
  rcases h0 with h | h
  · simp [not_lt.2 hdisc, ← h]
  · by_cases h1 : 0 ≤ intersect_sphere.t1 Real.sqrt o d c r
    · have : intersect_sphere.t1 Real.sqrt o d c r = 0 := le_antisymm (h ▸ hle) h1
      simp [not_lt.2 hdisc, this]
    · simp [not_lt.2 hdisc, h1, ← h]

/-- Witness of C19: the origin `(0,0,1)` on the unit sphere about `(0,0,0)`,
once with the direction `(0,0,1)` pointing out of the sphere and once with
`(0,0,-1)` pointing into it. -/
theorem intersect_sphere_origin_on_surface_witness :
    intersect_sphere (1 / 1000) Real.sqrt
        (⟨0, 0, 1⟩ : Vec3 ℝ) ⟨0, 0, 1⟩ ⟨0, 0, 0⟩ 1 7 = some (true, 0) ∧
    intersect_sphere (1 / 1000) Real.sqrt
        (⟨0, 0, 1⟩ : Vec3 ℝ) ⟨0, 0, -1⟩ ⟨0, 0, 0⟩ 1 7 = some (true, 0) :=
  ⟨intersect_sphere_origin_on_surface (1 / 1000) ⟨0, 0, 1⟩ ⟨0, 0, 1⟩ ⟨0, 0, 0⟩ 1 7
      (by norm_num) (by simp [length, dot]) (by simp [dot]),
   intersect_sphere_origin_on_surface (1 / 1000) ⟨0, 0, 1⟩ ⟨0, 0, -1⟩ ⟨0, 0, 0⟩ 1 7
      (by norm_num) (by simp [length, dot]) (by simp [dot])⟩

/-- C20: over the reals, for a unit direction and a non-negative discriminant:
`t1 ≤ t2`; the guard of the branch `else if (t1 >= 0) *t = t1` (the first
guard fails and `t1 ≥ 0`) never holds; `min(t1, t2)` is `t1`; so
`intersect_sphere` returns what the code without that branch and with `t1` for
the minimum returns; and when the discriminant is `0` both roots are
`-b/(2a)` and the function returns `true` exactly when `-b/(2a) ≥ 0`. -/
theorem intersect_sphere_roots_ordered (EPSILON : ℝ) (o d c : Vec3 ℝ) (r t0 : ℝ)
    (hε : 0 < EPSILON) (hd : length Real.sqrt d = 1)
    (hdisc : 0 ≤ intersect_sphere.discriminant o d c r) :
    intersect_sphere.t1 Real.sqrt o d c r ≤ intersect_sphere.t2 Real.sqrt o d c r ∧
    ¬ (¬ (0 ≤ intersect_sphere.t1 Real.sqrt o d c r ∧
            0 ≤ intersect_sphere.t2 Real.sqrt o d c r) ∧
        0 ≤ intersect_sphere.t1 Real.sqrt o d c r) ∧
    glm_min (intersect_sphere.t1 Real.sqrt o d c r) (intersect_sphere.t2 Real.sqrt o d c r) =
      intersect_sphere.t1 Real.sqrt o d c r ∧
    intersect_sphere EPSILON Real.sqrt o d c r t0 =
      some (
        if 0 ≤ intersect_sphere.t1 Real.sqrt o d c r ∧
            0 ≤ intersect_sphere.t2 Real.sqrt o d c r then
          (true, intersect_sphere.t1 Real.sqrt o d c r)
        else if 0 ≤ intersect_sphere.t2 Real.sqrt o d c r then
          (true, intersect_sphere.t2 Real.sqrt o d c r)
        else (false, t0)) ∧
    (intersect_sphere.discriminant o d c r = 0 →
      intersect_sphere.t1 Real.sqrt o d c r =
        -intersect_sphere.b o d c / (2 * intersect_sphere.a d) ∧
      intersect_sphere.t2 Real.sqrt o d c r =
        -intersect_sphere.b o d c / (2 * intersect_sphere.a d) ∧
      ((∃ t, intersect_sphere EPSILON Real.sqrt o d c r t0 = some (true, t)) ↔
        0 ≤ -intersect_sphere.b o d c / (2 * intersect_sphere.a d))) := by
  have hle := (roots_of_discriminant_nonneg o d c r hd hdisc).1
  have hunit := intersect_sphere_unit EPSILON o d c r t0 hε hd
  refine ⟨hle, fun h => h.1 ⟨h.2, le_trans h.2 hle⟩, ?_, ?_, ?_⟩
  · simp [glm_min, not_lt.2 hle]
  · rw [hunit]
    by_cases h1 : 0 ≤ intersect_sphere.t1 Real.sqrt o d c r
    · simp [not_lt.2 hdisc, h1, le_trans h1 hle]
    · simp [not_lt.2 hdisc, h1]
  · intro hzero
    have e1 : intersect_sphere.t1 Real.sqrt o d c r =
        -intersect_sphere.b o d c / (2 * intersect_sphere.a d) := by
      simp [intersect_sphere.t1, hzero]
    have e2 : intersect_sphere.t2 Real.sqrt o d c r =
        -intersect_sphere.b o d c / (2 * intersect_sphere.a d) := by
      simp [intersect_sphere.t2, hzero]
    refine ⟨e1, e2, ?_⟩
    rw [hunit, e1, e2]
    by_cases h : 0 ≤ -intersect_sphere.b o d c / (2 * intersect_sphere.a d)
    · simp [not_lt.2 hdisc, h]
    · simp [not_lt.2 hdisc, h]

/-- Witness of C20: the ray from `(1,0,5)` along `(0,0,-1)` touches the unit
sphere about the origin: the discriminant is `0` and the call returns `true`
with `t = 5`. -/
theorem intersect_sphere_roots_ordered_witness :
    intersect_sphere (1 / 1000) Real.sqrt
        (⟨1, 0, 5⟩ : Vec3 ℝ) ⟨0, 0, -1⟩ ⟨0, 0, 0⟩ 1 7 = some (true, 5) := by
  have hzero : intersect_sphere.discriminant (⟨1, 0, 5⟩ : Vec3 ℝ) ⟨0, 0, -1⟩ ⟨0, 0, 0⟩ 1
      = 0 := by
    simp [intersect_sphere.discriminant, intersect_sphere.a, intersect_sphere.b,
      intersect_sphere.c, dot]
    norm_num
  have H := intersect_sphere_roots_ordered (1 / 1000) ⟨1, 0, 5⟩ ⟨0, 0, -1⟩ ⟨0, 0, 0⟩ 1 7
    (by norm_num) (by simp [length, dot]) (by rw [hzero])
  obtain ⟨e1, e2, -⟩ := H.2.2.2.2 hzero
  have hval : -intersect_sphere.b (⟨1, 0, 5⟩ : Vec3 ℝ) ⟨0, 0, -1⟩ ⟨0, 0, 0⟩ /
      (2 * intersect_sphere.a (⟨0, 0, -1⟩ : Vec3 ℝ)) = 5 := by
    simp [intersect_sphere.a, intersect_sphere.b, dot]
  rw [H.2.2.2.1, e1, e2, hval]
  norm_num

/-! ## `evaluate_phong`: the order of the lights -/

/-- One iteration of the loop adds the term of the light to `contribution`,
and halts when the emission query halts. -/
theorem loop_body_eq_map (env : Cglib α) (data : RenderData α)
    (mat : MaterialSample α) (P N V acc : Vec3 α) (l : Light α) :
    evaluate_phong.loop_body env data mat P N V acc l =
      ((l.getEmission (-(evaluate_phong.L env P l))).map (fun e =>
        evaluate_phong.diffuse env data mat P N e l +
        evaluate_phong.specular env data mat P N V e l +
        evaluate_phong.ambient data mat P l)).map (fun t => acc + t) := by
  unfold evaluate_phong.loop_body
  cases l.getEmission (-(evaluate_phong.L env P l)) <;> rfl

/-- Two iterations of the loop commute. -/
theorem loop_body_comm (env : Cglib α) (data : RenderData α)
    (mat : MaterialSample α) (P N V acc : Vec3 α) (l₁ l₂ : Light α) :
    (evaluate_phong.loop_body env data mat P N V acc l₁).bind
        (fun a => evaluate_phong.loop_body env data mat P N V a l₂) =
      (evaluate_phong.loop_body env data mat P N V acc l₂).bind
        (fun a => evaluate_phong.loop_body env data mat P N V a l₁) := by
  simp only [loop_body_eq_map]
  cases l₁.getEmission (-(evaluate_phong.L env P l₁)) <;>
    cases l₂.getEmission (-(evaluate_phong.L env P l₂)) <;>
    simp [add_right_comm]

/-- The loop over the lights does not depend on their order. -/
theorem foldlM_loop_body_perm (env : Cglib α) (data : RenderData α)
    (mat : MaterialSample α) (P N V : Vec3 α) {ls₁ ls₂ : List (Light α)}
    (hperm : ls₁.Perm ls₂) :
    ∀ acc : Vec3 α,
      ls₁.foldlM (evaluate_phong.loop_body env data mat P N V) acc =
        ls₂.foldlM (evaluate_phong.loop_body env data mat P N V) acc := by
  induction hperm with
  | nil => intro acc; rfl
  | cons x _ ih =>
    intro acc
    simp only [List.foldlM_cons, Option.bind_eq_bind]
    congr 1
    funext a
    exact ih a
  | swap x y l =>
    intro acc
    simp only [List.foldlM_cons, Option.bind_eq_bind]
    rw [← Option.bind_assoc, ← Option.bind_assoc, loop_body_comm]
  | trans _ _ ih₁ ih₂ => intro acc; rw [ih₁, ih₂]

/-- Two loop bodies that agree on the lights of the list give the same loop. -/
theorem foldlM_congr_of_mem {β γ : Type} (f g : β → γ → Option β) :
    ∀ (ls : List γ) (acc : β),
      (∀ l ∈ ls, ∀ a, f a l = g a l) → ls.foldlM f acc = ls.foldlM g acc
  | [], _, _ => rfl
  | l :: ls, acc, h => by
    simp only [List.foldlM_cons, Option.bind_eq_bind]
    rw [h l (List.mem_cons_self l ls) acc]
    congr 1
    funext a
    exact foldlM_congr_of_mem f g ls a (fun l' hl' => h l' (List.mem_cons_of_mem l hl'))

/-- C18: over the reals, `evaluate_phong` is invariant under reordering of the
light list: for every permutation `lights` of the lights of the scene and
every fixed material, `P`, `N`, `V` and toggles, the call returns the same
colour, and halts in the same cases. As `visible` receives the render data,
its answers are taken not to depend on the order of the lights. -/
theorem evaluate_phong_perm_lights (env : Cglib ℝ) (data : RenderData ℝ)
    (mat : MaterialSample ℝ) (P N V : Vec3 ℝ) (lights : List (Light ℝ))
    (hperm : lights.Perm data.context.scene.lights)
    (hvis : data.context.params.shadows = true →
      ∀ l ∈ data.context.scene.lights,
        env.visible (set_lights data lights) P l.getPosition =
          env.visible data P l.getPosition) :
    evaluate_phong env (set_lights data lights) mat P N V =
      evaluate_phong env data mat P N V := by
  have hbody : ∀ l ∈ lights, ∀ a,
      evaluate_phong.loop_body env (set_lights data lights) mat P N V a l =
        evaluate_phong.loop_body env data mat P N V a l := by
    intro l hl a
    have hv : evaluate_phong.visibility env (set_lights data lights) P l =
        evaluate_phong.visibility env data P l := by
      unfold evaluate_phong.visibility
      show (if data.context.params.shadows = true then _ else _) = _
      by_cases hsh : data.context.params.shadows = true
      · rw [if_pos hsh, if_pos hsh, hvis hsh l (hperm.subset hl)]
      · rw [if_neg hsh, if_neg hsh]
    have hI : ∀ e, evaluate_phong.illumination env (set_lights data lights) P N e l =
        evaluate_phong.illumination env data P N e l := by
      intro e
      unfold evaluate_phong.illumination
      rw [hv]
    simp only [evaluate_phong.loop_body, evaluate_phong.diffuse, evaluate_phong.specular,
      hI]
    rfl
  have hfold : (set_lights data lights).context.scene.lights.foldlM
      (evaluate_phong.loop_body env (set_lights data lights) mat P N V) 0 =
      data.context.scene.lights.foldlM (evaluate_phong.loop_body env data mat P N V) 0 := by
    show lights.foldlM _ 0 = _
    rw [foldlM_congr_of_mem _ _ lights 0 hbody]
    exact foldlM_loop_body_perm env data mat P N V hperm 0
  unfold evaluate_phong
  rw [hfold]

/-- Witness of C18: two lights at `(0,0,2)` and `(0,2,0)` in either order. -/
theorem evaluate_phong_perm_lights_witness :
    evaluate_phong
      (⟨1 / 1000, Real.sqrt, fun x y => x ^ y, fun I n => (2 * dot n I) * n - I,
        fun _ _ _ => none, fun _ _ _ => 0, fun _ _ _ => true, fun _ _ _ => 0⟩ : Cglib ℝ)
      (set_lights
        ⟨⟨⟨4, true, true, true, true, false, false, false, false, 1 / 1000⟩,
          ⟨[⟨fun _ => some ⟨4, 4, 4⟩, ⟨0, 0, 2⟩, ⟨4, 4, 4⟩⟩,
            ⟨fun _ => some ⟨1, 2, 3⟩, ⟨0, 2, 0⟩, ⟨1, 2, 3⟩⟩]⟩⟩, true, 0, 0⟩
        [⟨fun _ => some ⟨1, 2, 3⟩, ⟨0, 2, 0⟩, ⟨1, 2, 3⟩⟩,
          ⟨fun _ => some ⟨4, 4, 4⟩, ⟨0, 0, 2⟩, ⟨4, 4, 4⟩⟩])
      ⟨⟨1 / 10, 1 / 10, 1 / 10⟩, ⟨1 / 2, 1 / 4, 0⟩, ⟨1 / 5, 1 / 5, 1 / 5⟩, 1⟩
      ⟨0, 0, 0⟩ ⟨0, 0, 1⟩ ⟨0, 0, 1⟩ =
    evaluate_phong
      (⟨1 / 1000, Real.sqrt, fun x y => x ^ y, fun I n => (2 * dot n I) * n - I,
        fun _ _ _ => none, fun _ _ _ => 0, fun _ _ _ => true, fun _ _ _ => 0⟩ : Cglib ℝ)
      ⟨⟨⟨4, true, true, true, true, false, false, false, false, 1 / 1000⟩,
        ⟨[⟨fun _ => some ⟨4, 4, 4⟩, ⟨0, 0, 2⟩, ⟨4, 4, 4⟩⟩,
          ⟨fun _ => some ⟨1, 2, 3⟩, ⟨0, 2, 0⟩, ⟨1, 2, 3⟩⟩]⟩⟩, true, 0, 0⟩
      ⟨⟨1 / 10, 1 / 10, 1 / 10⟩, ⟨1 / 2, 1 / 4, 0⟩, ⟨1 / 5, 1 / 5, 1 / 5⟩, 1⟩
      ⟨0, 0, 0⟩ ⟨0, 0, 1⟩ ⟨0, 0, 1⟩ :=
  evaluate_phong_perm_lights _ _ _ _ _ _ _ (List.Perm.swap _ _ _) (fun _ _ _ => rfl)

/-! ## The ray tree of the modelled orchestrator -/

/-- Every call recorded by the material dispatch has depth `depth + 1`. -/
theorem calls_dispatch_secondary (env : Cglib α) (data : RenderData α) (depth : Int)
    (hit : Hit α) :
    ∀ call ∈ (dispatch_secondary env data depth hit).2.2, call.2 = depth + 1 := by
  intro call hcall
  simp only [dispatch_secondary, List.mem_append] at hcall
  rcases hcall with h | h
  · split_ifs at h
    · exact (calls_evaluate_reflection env data depth hit.P hit.N hit.V call h).1
    · simp at h
  · split_ifs at h
    · exact (calls_handle_transmissive_material env data depth hit.P hit.N hit.V
        hit.eta_of_channel call h).1
    · simp at h

/-- On reaching `max_depth` the modelled orchestrator returns the zero colour
and a tree that is this call alone, whatever the fuel. -/
theorem trace_model_terminal (orc : Orchestrator α) (env : Cglib α) (fuel : Nat)
    (data : RenderData α) (ray : Ray α) (depth : Int) (nesting : Nat)
    (h : data.context.params.max_depth ≤ depth) :
    trace_recursive_model orc env fuel data ray depth nesting =
      some (0, [⟨ray, depth, nesting⟩]) := by
  cases fuel <;> simp [trace_recursive_model, h]

/-- With fuel `max_depth - depth` or more the modelled orchestrator returns,
and every node of its tree has a depth of at most `max_depth` that exceeds
`depth` by as much as its nesting exceeds `nesting`. -/
theorem trace_model_bounded (orc : Orchestrator α) (env : Cglib α) (data : RenderData α) :
    ∀ (fuel : Nat) (ray : Ray α) (depth : Int) (nesting : Nat),
      depth ≤ data.context.params.max_depth →
      data.context.params.max_depth - depth ≤ fuel →
      ∃ colour tree,
        trace_recursive_model orc env fuel data ray depth nesting = some (colour, tree) ∧
        ∀ node ∈ tree,
          node.depth ≤ data.context.params.max_depth ∧
          node.depth - depth = (node.nesting : Int) - nesting := by
  intro fuel
  induction fuel with
  | zero =>
    intro ray depth nesting hle hfuel
    have hterm : data.context.params.max_depth ≤ depth := by
      have h0 : ((0 : Nat) : Int) = 0 := rfl
      omega
    refine ⟨_, _, trace_model_terminal orc env 0 data ray depth nesting hterm, ?_⟩
    intro node hnode
    simp only [List.mem_singleton] at hnode
    subst hnode
    exact ⟨hle, by simp⟩
  | succ fuel ih =>
    intro ray depth nesting hle hfuel
    by_cases hterm : data.context.params.max_depth ≤ depth
    · refine ⟨_, _, trace_model_terminal orc env _ data ray depth nesting hterm, ?_⟩
      intro node hnode
      simp only [List.mem_singleton] at hnode
      subst hnode
      exact ⟨hle, by simp⟩
    · have hroot : (⟨ray, depth, nesting⟩ : TraceNode α).depth ≤
            data.context.params.max_depth ∧
          (⟨ray, depth, nesting⟩ : TraceNode α).depth - depth = ((nesting : Nat) : Int) - nesting :=
        ⟨hle, by simp⟩
      rw [trace_recursive_model, if_neg hterm]
      cases hhit : orc.intersect data ray with
      | none =>
        refine ⟨_, _, rfl, ?_⟩
        intro node hnode
        simp only [List.mem_singleton] at hnode
        subst hnode
        exact hroot
      | some hit =>
        simp only []
        generalize hsec : dispatch_secondary _ data depth hit = secondary
        have hcalls : ∀ call ∈ secondary.2.2, call.2 = depth + 1 := by
          rw [← hsec]
          exact calls_dispatch_secondary _ data depth hit
        have hsub : ∀ call ∈ secondary.2.2, ∃ colour tree,
            trace_recursive_model orc env fuel data call.1 call.2 (nesting + 1) =
              some (colour, tree) ∧
            ∀ node ∈ tree,
              node.depth ≤ data.context.params.max_depth ∧
              node.depth - depth = (node.nesting : Int) - nesting := by
          intro call hcall
          rw [hcalls call hcall]
          obtain ⟨colour, tree, hrun, hnodes⟩ := ih call.1 (depth + 1) (nesting + 1)
            (by omega) (by push_cast at hfuel ⊢; omega)
          refine ⟨colour, tree, hrun, fun node hnode => ?_⟩
          obtain ⟨h1, h2⟩ := hnodes node hnode
          refine ⟨h1, ?_⟩
          push_cast at h2
          omega
        have hall : (secondary.2.2.map (fun call =>
            trace_recursive_model orc env fuel data call.1 call.2 (nesting + 1))).all
              Option.isSome = true := by
          rw [List.all_eq_true]
          intro s hs
          obtain ⟨call, hcall, rfl⟩ := List.mem_map.1 hs
          obtain ⟨colour, tree, hrun, -⟩ := hsub call hcall
          rw [hrun]
          rfl
        rw [if_pos hall]
        refine ⟨_, _, rfl, ?_⟩
        intro node hnode
        rcases List.mem_cons.1 hnode with h | h
        · subst h
          exact hroot
        · obtain ⟨tree, htree, hmem⟩ := List.mem_flatten.1 h
          obtain ⟨s, hs, hmap⟩ := List.mem_filterMap.1 htree
          obtain ⟨call, hcall, rfl⟩ := List.mem_map.1 hs
          obtain ⟨colour, tree', hrun, hnodes⟩ := hsub call hcall
          rw [hrun] at hmap
          simp only [Option.map_some', Option.some.injEq] at hmap
          subst hmap
          exact hnodes node hmem

/-- C17: with the orchestrator modelled from the specification, for
`max_depth = k ≥ 0` and a valid `tld`: on reaching `max_depth` a call of
`trace_recursive` returns the zero colour and its tree is that call alone (no
secondary ray is cast); and `render_pixel` returns the colour of the ray tree
rooted at the primary ray at depth `0`, a tree that exists with fuel `k` and
in which every call is nested in at most `k` recursive calls, the argument
`depth` of each call being its nesting. -/
theorem ray_tree_nesting_bounded (orc : Orchestrator ℝ) (env : Cglib ℝ)
    (createPrimaryRay : RenderData ℝ → ℝ → ℝ → Ray ℝ) (x y : Int)
    (context : RaytracingContext ℝ) (data : RenderData ℝ)
    (hk : 0 ≤ data.context.params.max_depth) (htld : data.tld = true) :
    (∀ (fuel : Nat) (dat : RenderData ℝ) (ray : Ray ℝ) (depth : Int) (nesting : Nat),
      dat.context.params.max_depth ≤ depth →
      trace_recursive_model orc env fuel dat ray depth nesting =
        some (0, [⟨ray, depth, nesting⟩])) ∧
    ∃ (colour : Vec3 ℝ) (data' : RenderData ℝ) (tree : List (TraceNode ℝ)),
      render_pixel (orchestrated orc env) createPrimaryRay x y context data =
        some (colour, data') ∧
      trace_recursive_model orc env data.context.params.max_depth.toNat data'
        (createPrimaryRay data' ((x : ℝ) + 0.5) ((y : ℝ) + 0.5)) 0 0 = some (colour, tree) ∧
      ∀ node ∈ tree,
        (node.nesting : Int) ≤ data.context.params.max_depth ∧
        node.depth = (node.nesting : Int) := by
  refine ⟨fun fuel dat ray depth nesting h =>
    trace_model_terminal orc env fuel dat ray depth nesting h, ?_⟩
  obtain ⟨colour, tree, hrun, hnodes⟩ :=
    trace_model_bounded orc env { data with x := (x : ℝ) + 0.5, y := (y : ℝ) + 0.5 }
      data.context.params.max_depth.toNat
      (createPrimaryRay { data with x := (x : ℝ) + 0.5, y := (y : ℝ) + 0.5 }
        ((x : ℝ) + 0.5) ((y : ℝ) + 0.5)) 0 0 hk
      (by rw [Int.toNat_of_nonneg hk]; simp)
  refine ⟨colour, { data with x := (x : ℝ) + 0.5, y := (y : ℝ) + 0.5 }, tree, ?_, hrun, ?_⟩
  · have hassert : cg_assert data.tld = some () := by simp [cg_assert, htld]
    simp only [render_pixel, hassert, orchestrated, Option.bind_eq_bind,
      Option.some_bind, sub_zero, Option.pure_def]
    rw [hrun]
    rfl
  · intro node hnode
    obtain ⟨h1, h2⟩ := hnodes node hnode
    have h3 : node.depth = (node.nesting : Int) := by
      simpa using h2
    exact ⟨h3 ▸ h1, h3⟩

/-- Witness of C17: a scene in which every ray hits a mirror, `max_depth = 2`,
pixel `(3, 4)`: `render_pixel` returns, and every call of its ray tree is
nested in at most two recursive calls. -/
theorem ray_tree_nesting_bounded_witness :
    ∃ (colour : Vec3 ℝ) (data' : RenderData ℝ) (tree : List (TraceNode ℝ)),
      render_pixel
        (orchestrated
          (⟨fun _ _ => some ⟨⟨0, 0, 0⟩, ⟨0, 0, 1⟩, ⟨0, 0, 1⟩, true, false, ⟨1, 1, 1⟩⟩,
            fun _ _ => 0, fun _ _ _ r t => r + t + ⟨1, 1, 1⟩⟩ : Orchestrator ℝ)
          (⟨1 / 1000, Real.sqrt, fun x y => x ^ y, fun I n => (2 * dot n I) * n - I,
            fun _ _ _ => none, fun _ _ _ => 1 / 2, fun _ _ _ => true,
            fun _ _ _ => 0⟩ : Cglib ℝ))
        (fun _ fx fy => ⟨⟨fx, fy, 5⟩, ⟨0, 0, -1⟩⟩) 3 4
        ⟨⟨2, true, true, true, true, true, true, false, false, 1 / 1000⟩, ⟨[]⟩⟩
        ⟨⟨⟨2, true, true, true, true, true, true, false, false, 1 / 1000⟩, ⟨[]⟩⟩, true, 0, 0⟩
        = some (colour, data') ∧
      trace_recursive_model
        (⟨fun _ _ => some ⟨⟨0, 0, 0⟩, ⟨0, 0, 1⟩, ⟨0, 0, 1⟩, true, false, ⟨1, 1, 1⟩⟩,
          fun _ _ => 0, fun _ _ _ r t => r + t + ⟨1, 1, 1⟩⟩ : Orchestrator ℝ)
        (⟨1 / 1000, Real.sqrt, fun x y => x ^ y, fun I n => (2 * dot n I) * n - I,
          fun _ _ _ => none, fun _ _ _ => 1 / 2, fun _ _ _ => true,
          fun _ _ _ => 0⟩ : Cglib ℝ)
        2 data' ⟨⟨(3 : ℝ) + 0.5, (4 : ℝ) + 0.5, 5⟩, ⟨0, 0, -1⟩⟩ 0 0 = some (colour, tree) ∧
      ∀ node ∈ tree, (node.nesting : Int) ≤ 2 ∧ node.depth = (node.nesting : Int) := by
  obtain ⟨colour, data', tree, h1, h2, h3⟩ := (ray_tree_nesting_bounded
    (⟨fun _ _ => some ⟨⟨0, 0, 0⟩, ⟨0, 0, 1⟩, ⟨0, 0, 1⟩, true, false, ⟨1, 1, 1⟩⟩,
      fun _ _ => 0, fun _ _ _ r t => r + t + ⟨1, 1, 1⟩⟩ : Orchestrator ℝ)
    (⟨1 / 1000, Real.sqrt, fun x y => x ^ y, fun I n => (2 * dot n I) * n - I,
      fun _ _ _ => none, fun _ _ _ => 1 / 2, fun _ _ _ => true,
      fun _ _ _ => 0⟩ : Cglib ℝ)
    (fun _ fx fy => ⟨⟨fx, fy, 5⟩, ⟨0, 0, -1⟩⟩) 3 4
    ⟨⟨2, true, true, true, true, true, true, false, false, 1 / 1000⟩, ⟨[]⟩⟩
    ⟨⟨⟨2, true, true, true, true, true, true, false, false, 1 / 1000⟩, ⟨[]⟩⟩, true, 0, 0⟩
    (by decide) rfl).2
  refine ⟨colour, data', tree, h1, ?_, h3⟩
  simpa using h2

end Whitted
